import Mathlib

/-!
Verification of the Klondike solitaire core engine of rymix/react-solitaire.

The definitions below are a shallow embedding of the TypeScript sources in
packages/core/src (types.ts, deck.ts, rules.ts, scoring.ts, game.ts).
JS arrays become Lean lists in the same order (index 0 = bottom of a pile);
JS numbers used as scores and timestamps become Int, counters and indices
become Nat, and every arithmetic comparison that can go below zero in JS
(such as length - 1) is performed on Int so that Nat truncation never
diverges from the JS semantics.  Date.now() is modelled by an explicit
now parameter.  Deep cloning (cloneState) is the identity under value
semantics.
-/

namespace Solitaire

/-- Suits, from the Suit union type in types.ts. -/
inductive Suit
  | hearts
  | diamonds
  | clubs
  | spades
deriving DecidableEq

/-- Card colours, from the Colour union type in types.ts. -/
inductive Colour
  | red
  | black
deriving DecidableEq

/-- Colour of each suit, from the SUIT_INFO table in types.ts. -/
def suitColour : Suit → Colour
  | .hearts => .red
  | .diamonds => .red
  | .clubs => .black
  | .spades => .black

/-- Card identity.  The source stores the string "suit-rank" built by
createCardId in deck.ts; that encoding is injective, so we model the
identity as the (suit, rank) pair itself. -/
structure CardId where
  suit : Suit
  rank : Nat
deriving DecidableEq

/-- A playing card, from the Card interface in types.ts.  The TS Rank type
is the literal union 1..13; we use Nat and perform rank arithmetic on Int
where the JS could go negative. -/
structure Card where
  id : CardId
  suit : Suit
  rank : Nat
  faceUp : Bool
deriving DecidableEq

/-- Translation of getCardColour in types.ts. -/
def getCardColour (card : Card) : Colour :=
  suitColour card.suit

/-- Pile kinds, from the PileType union type in types.ts. -/
inductive PileType
  | stock
  | waste
  | foundation
  | tableau
deriving DecidableEq

/-- A pile of cards, from the Pile interface in types.ts.  Cards are stored
bottom to top, exactly like the JS array. -/
structure Pile where
  id : String
  type : PileType
  cards : List Card
  tableauIndex : Option Nat
  foundationSuit : Option Suit
deriving DecidableEq

/-- Draw modes, from the DrawMode union type in types.ts. -/
inductive DrawMode
  | drawOne
  | drawThree
deriving DecidableEq

/-- Scoring modes, from the ScoringMode union type in types.ts. -/
inductive ScoringMode
  | standard
  | vegas
  | none
deriving DecidableEq

/-- Game configuration, from the GameConfig interface in types.ts. -/
structure GameConfig where
  drawMode : DrawMode
  scoringMode : ScoringMode
  unlimitedPasses : Bool
  autoFlipTableau : Bool
deriving DecidableEq

/-- The complete game state, from the GameState interface in types.ts.
The TS type fixes foundations to a 4-tuple and tableau to a 7-tuple of
piles; we use lists, and carry the length facts as hypotheses where a
theorem needs them. -/
structure GameState where
  stock : Pile
  waste : Pile
  foundations : List Pile
  tableau : List Pile
  score : Int
  moves : Nat
  startTime : Option Int
  endTime : Option Int
  isWon : Bool
  stockPasses : Nat
  config : GameConfig
deriving DecidableEq

/-- A location in the game, from the CardLocation interface in types.ts. -/
structure CardLocation where
  pileType : PileType
  pileIndex : Nat
  cardIndex : Nat
deriving DecidableEq

/-- A committed move record, from the Move interface in types.ts.  The TS
field names from and to are Lean keywords, hence fromLoc and toLoc. -/
structure Move where
  fromLoc : CardLocation
  toLoc : CardLocation
  cardCount : Nat
  flippedCard : Bool
  scoreChange : Int
deriving DecidableEq

/-- Result of a fallible operation, from the MoveResult interface in
types.ts (success plus three optional fields). -/
structure MoveResult where
  success : Bool
  state : Option GameState
  error : Option String
  move : Option Move
deriving DecidableEq

/-! Definitions from deck.ts. -/

/-- The SUITS constant of deck.ts. -/
def SUITS : List Suit :=
  [.hearts, .diamonds, .clubs, .spades]

/-- The RANKS constant of deck.ts. -/
def RANKS : List Nat :=
  [1, 2, 3, 4, 5, 6, 7, 8, 9, 10, 11, 12, 13]

/-- Translation of createCardId in deck.ts (see CardId). -/
def createCardId (suit : Suit) (rank : Nat) : CardId :=
  ⟨suit, rank⟩

/-- Translation of createCard in deck.ts. -/
def createCard (suit : Suit) (rank : Nat) (faceUp : Bool) : Card :=
  { id := createCardId suit rank, suit := suit, rank := rank, faceUp := faceUp }

/-- Translation of createDeck in deck.ts: the nested suit/rank loops
pushing cards in order. -/
def createDeck : List Card :=
  (SUITS.map (fun suit => RANKS.map (fun rank => createCard suit rank false))).flatten

/-- Swap of two positions of a list, as performed by the JS destructuring
assignment in the Fisher-Yates loops of deck.ts. -/
def listSwap (l : List Card) (i j : Nat) : List Card :=
  match l[i]?, l[j]? with
  | some a, some b => (l.set i b).set j a
  | _, _ => l

/-- Abstraction of the random source driving a shuffle: for each loop
index i the JS computes j = floor(random() * (i + 1)), a value in [0, i].
Both Math.random (shuffle) and the floating-point linear congruential
generator (shuffleWithSeed) are instances of such a source, so every run
of either JS shuffle is modelled by some RandSource. -/
def RandSource : Type :=
  (i : Nat) → Fin (i + 1)

/-- Fisher-Yates loop of shuffle / shuffleWithSeed in deck.ts: i runs from
length - 1 down to 1, swapping position i with the drawn position j ≤ i. -/
def fisherYatesAux (rand : RandSource) : List Card → Nat → List Card
  | l, 0 => l
  | l, i + 1 => fisherYatesAux rand (listSwap l (i + 1) (rand (i + 1)).val) i

/-- Translation of createShuffledDeck in deck.ts, over an abstract random
source (see RandSource). -/
def createShuffledDeck (rand : RandSource) : List Card :=
  fisherYatesAux rand createDeck (createDeck.length - 1)

/-- Translation of flipCard in deck.ts, including the identity-preserving
no-op branch. -/
def flipCard (card : Card) (faceUp : Bool) : Card :=
  if card.faceUp == faceUp then card else { card with faceUp := faceUp }

/-! Definitions from rules.ts. -/

/-- Translation of canPlaceOnFoundation in rules.ts. -/
def canPlaceOnFoundation (card : Card) (foundation : Pile) : Bool :=
  match foundation.cards.getLast? with
  | Option.none => card.rank == 1
  | some topCard => card.suit == topCard.suit && card.rank == topCard.rank + 1

/-- Translation of canPlaceOnTableau in rules.ts.  The JS compares
card.rank === topCard.rank - 1 on numbers, so the subtraction is done
on Int. -/
def canPlaceOnTableau (card : Card) (tableau : Pile) : Bool :=
  match tableau.cards.getLast? with
  | Option.none => card.rank == 13
  | some topCard =>
    if !topCard.faceUp then false
    else
      getCardColour card != getCardColour topCard &&
        (card.rank : Int) == (topCard.rank : Int) - 1

/-- Translation of getPile in rules.ts; the JS expression
state.foundations[i] ?? null becomes an Option lookup. -/
def getPile (state : GameState) (location : CardLocation) : Option Pile :=
  match location.pileType with
  | .stock => some state.stock
  | .waste => some state.waste
  | .foundation => state.foundations[location.pileIndex]?
  | .tableau => state.tableau[location.pileIndex]?

/-- Translation of canPickUpCards in rules.ts.  The JS comparison
fromIndex === length - 1 is on numbers, so it is done on Int; the tableau
loop over the suffix becomes drop/all. -/
def canPickUpCards (pile : Pile) (fromIndex : Nat) : Bool :=
  match pile.type with
  | .stock => false
  | .waste => (fromIndex : Int) == (pile.cards.length : Int) - 1
  | .foundation => (fromIndex : Int) == (pile.cards.length : Int) - 1
  | .tableau => (pile.cards.drop fromIndex).all (·.faceUp)

/-- Translation of isValidMove in rules.ts.  The availableCards comparison
is on Int exactly like the JS number arithmetic. -/
def isValidMove (state : GameState) (fromLoc toLoc : CardLocation)
    (cardCount : Nat) : Bool :=
  match getPile state fromLoc, getPile state toLoc with
  | some sourcePile, some destPile =>
    if !canPickUpCards sourcePile fromLoc.cardIndex then false
    else if (cardCount : Int) >
        (sourcePile.cards.length : Int) - (fromLoc.cardIndex : Int) then false
    else
      match sourcePile.cards[fromLoc.cardIndex]? with
      | Option.none => false
      | some movingCard =>
        if destPile.type == .stock || destPile.type == .waste then false
        else if destPile.type == .foundation then
          if cardCount != 1 then false
          else canPlaceOnFoundation movingCard destPile
        else if destPile.type == .tableau then
          canPlaceOnTableau movingCard destPile
        else false
  | _, _ => false

/-- Translation of checkWinCondition in rules.ts. -/
def checkWinCondition (state : GameState) : Bool :=
  (state.foundations.foldl (fun sum foundation => sum + foundation.cards.length) 0) == 52

/-- Translation of findAutoCompleteMove in rules.ts: scan tableau columns
left to right, and for the top card of each non-empty column try
foundations 0..3 in order.  The early-return loops become findSome?. -/
def findAutoCompleteMove (state : GameState) :
    Option (CardLocation × CardLocation) :=
  (List.range 7).findSome? fun i =>
    match state.tableau[i]? with
    | Option.none => Option.none
    | some tableau =>
      if tableau.cards.length == 0 then Option.none
      else
        match tableau.cards.getLast? with
        | Option.none => Option.none
        | some topCard =>
          let fromLoc : CardLocation := ⟨.tableau, i, tableau.cards.length - 1⟩
          (List.range 4).findSome? fun j =>
            match state.foundations[j]? with
            | Option.none => Option.none
            | some foundation =>
              if canPlaceOnFoundation topCard foundation then
                some (fromLoc, ⟨.foundation, j, foundation.cards.length⟩)
              else Option.none

/-! Definitions from scoring.ts. -/

/-- Score for a move in standard mode; translation of
calculateStandardScore with the STANDARD_SCORES constants inlined. -/
def calculateStandardScore (move : Move) : Int :=
  (if move.fromLoc.pileType == .waste && move.toLoc.pileType == .tableau then 5 else 0) +
  (if move.fromLoc.pileType == .waste && move.toLoc.pileType == .foundation then 10 else 0) +
  (if move.fromLoc.pileType == .tableau && move.toLoc.pileType == .foundation then 10 else 0) +
  (if move.fromLoc.pileType == .foundation && move.toLoc.pileType == .tableau then -15 else 0) +
  (if move.flippedCard then 5 else 0)

/-- Score for a move in vegas mode; translation of calculateVegasScore
with the VEGAS_SCORES constants inlined. -/
def calculateVegasScore (move : Move) : Int :=
  (if move.toLoc.pileType == .foundation then 5 else 0) +
  (if move.fromLoc.pileType == .foundation && move.toLoc.pileType == .tableau then -5 else 0)

/-- Translation of calculateMoveScore in scoring.ts. -/
def calculateMoveScore (move : Move) (state : GameState) : Int :=
  match state.config.scoringMode with
  | .standard => calculateStandardScore move
  | .vegas => calculateVegasScore move
  | .none => 0

/-- Translation of getInitialScore in scoring.ts. -/
def getInitialScore (scoringMode : ScoringMode) : Int :=
  match scoringMode with
  | .vegas => -52
  | .standard => 0
  | .none => 0

/-- Translation of getRecycleWastePenalty in scoring.ts. -/
def getRecycleWastePenalty (state : GameState) : Int :=
  if state.config.scoringMode != .standard then 0
  else if state.config.drawMode != .drawThree then 0
  else -20

/-- Translation of calculateTimeBonus in scoring.ts.  The JS floating
point expression Math.floor(700000 / elapsedSeconds) equals Nat division
here: the double quotient of these magnitudes can never round up across
an integer, so its floor is the exact integer quotient. -/
def calculateTimeBonus (elapsedSeconds : Nat) : Nat :=
  if elapsedSeconds <= 30 then 0
  else max 0 (min (700000 / elapsedSeconds) 700000)

/-! Definitions from game.ts.  Error message strings are bound to
constants so the result records can reference them. -/

/-- Error message of executeMove for an invalid move. -/
def invalidMoveError : String :=
  "Invalid move"

/-- Error message of flipTableauCard for an out-of-range index. -/
def invalidIndexError : String :=
  "Invalid tableau index"

/-- Error message of flipTableauCard for an empty column. -/
def tableauEmptyError : String :=
  "Tableau is empty"

/-- Error message of flipTableauCard for an already face-up top card. -/
def alreadyFaceUpError : String :=
  "Card is already face up"

/-- Error message of autoMoveToFoundation for a missing source pile. -/
def invalidSourceError : String :=
  "Invalid source pile"

/-- Error message of autoMoveToFoundation for a non-top non-King source. -/
def autoMoveKingError : String :=
  "Can only auto-move top card or Kings to empty columns"

/-- Error message of autoMoveToFoundation for a missing or face-down card. -/
def cardNotAvailableError : String :=
  "Card not available"

/-- Error message of autoMoveToFoundation when no destination accepts. -/
def noValidMoveError : String :=
  "No valid move for this card"

/-- Failure result record shared by the fallible operations of game.ts. -/
def mkFailure (error : String) : MoveResult :=
  ⟨false, Option.none, some error, Option.none⟩

/-- Name of each pile type, used by createPile to build pile id strings. -/
def pileTypeName : PileType → String
  | .stock => "stock"
  | .waste => "waste"
  | .foundation => "foundation"
  | .tableau => "tableau"

/-- Translation of createPile in game.ts. -/
def createPile (type : PileType) (index : Nat) : Pile :=
  { id :=
      if type == .tableau || type == .foundation then
        pileTypeName type ++ "-" ++ toString index
      else pileTypeName type
    type := type
    cards := []
    tableauIndex := if type == .tableau then some index else Option.none
    foundationSuit := Option.none }

/-- The DEFAULT_CONFIG constant of game.ts. -/
def DEFAULT_CONFIG : GameConfig :=
  ⟨.drawOne, .standard, true, false⟩

/-- Push a card onto the pile at index i of a pile list, as the JS
statement tableau[row].cards.push(card) does; in the source the index
always resolves (the tableau is a 7-tuple), so the none branch is
unreachable there. -/
def pushToPile (piles : List Pile) (i : Nat) (card : Card) : List Pile :=
  match piles[i]? with
  | some pile => piles.set i { pile with cards := pile.cards ++ [card] }
  | Option.none => piles

/-- Iteration sequence of the nested dealing loops of createInitialState:
col runs over 0..6 and row over col..6, in that order. -/
def dealPairs : List (Nat × Nat) :=
  ((List.range 7).map (fun col => (List.range' col (7 - col)).map (fun row => (col, row)))).flatten

/-- Dealing loop of createInitialState: each (col, row) step consumes the
next deck card and pushes it onto tableau column row, face-up exactly on
the diagonal row = col.  The deck always holds 52 > 28 cards, so the
empty-deck branch is unreachable in the source. -/
def dealLoop : List (Nat × Nat) → List Pile → List Card → List Pile × List Card
  | [], piles, deck => (piles, deck)
  | (col, row) :: rest, piles, deck =>
    match deck with
    | [] => (piles, deck)
    | card :: deckRest =>
      dealLoop rest (pushToPile piles row (flipCard card (row == col))) deckRest

/-- Translation of createInitialState in game.ts.  The TS signature takes
a Partial GameConfig merged over DEFAULT_CONFIG; we take the merged full
configuration.  The trailing while loop pushes every remaining deck card
onto the empty stock in order, which is exactly the remaining list. -/
def createInitialState (config : GameConfig) (rand : RandSource) : GameState :=
  let deck := createShuffledDeck rand
  let dealt := dealLoop dealPairs
    [createPile .tableau 0, createPile .tableau 1, createPile .tableau 2,
      createPile .tableau 3, createPile .tableau 4, createPile .tableau 5,
      createPile .tableau 6] deck
  { stock := { createPile .stock 0 with cards := dealt.2 }
    waste := createPile .waste 0
    foundations := [createPile .foundation 0, createPile .foundation 1,
      createPile .foundation 2, createPile .foundation 3]
    tableau := dealt.1
    score := getInitialScore config.scoringMode
    moves := 0
    startTime := Option.none
    endTime := Option.none
    isWon := false
    stockPasses := 0
    config := config }

/-- Translation of cloneState in game.ts: a deep structural copy, which
is the identity under value semantics. -/
def cloneState (state : GameState) : GameState :=
  state

/-- Timer-start statement shared by drawFromStock, executeMove and
flipTableauCard: set startTime to now exactly when it is still null. -/
def startTimer (now : Int) (startTime : Option Int) : Option Int :=
  match startTime with
  | Option.none => some now
  | some t => some t

/-- Draw loop of drawFromStock: pop the top (last) stock card and push it
face-up onto the waste, cardsToMove times.  The loop bound never exceeds
the stock length, so the empty-stock branch is unreachable in the
source. -/
def drawLoopCards : Nat → List Card → List Card → List Card × List Card
  | 0, stock, waste => (stock, waste)
  | n + 1, stock, waste =>
    match stock.getLast? with
    | Option.none => (stock, waste)
    | some card => drawLoopCards n stock.dropLast (waste ++ [flipCard card true])

/-- Translation of drawFromStock in game.ts. -/
def drawFromStock (now : Int) (state : GameState) : GameState :=
  if state.stock.cards.length == 0 then state
  else
    let drawCount : Nat := if state.config.drawMode == .drawThree then 3 else 1
    let cardsToMove := min drawCount state.stock.cards.length
    let drawn := drawLoopCards cardsToMove state.stock.cards state.waste.cards
    { state with
      stock := { state.stock with cards := drawn.1 }
      waste := { state.waste with cards := drawn.2 }
      startTime := startTimer now state.startTime
      moves := state.moves + 1 }

/-- Recycle loop of resetStock: the JS pops waste cards from the end one
at a time and pushes them face-down onto the stock; consuming the
reversed waste from the front is that same iteration order. -/
def recycleRev : List Card → List Card → List Card
  | stock, [] => stock
  | stock, card :: rest => recycleRev (stock ++ [flipCard card false]) rest

/-- Translation of resetStock in game.ts. -/
def resetStock (state : GameState) : GameState :=
  if state.waste.cards.length == 0 then state
  else if state.config.scoringMode == .vegas && !state.config.unlimitedPasses
      && decide (3 <= state.stockPasses) then state
  else
    let stockCards := recycleRev state.stock.cards state.waste.cards.reverse
    let state1 := { state with
      stock := { state.stock with cards := stockCards }
      waste := { state.waste with cards := [] }
      stockPasses := state.stockPasses + 1
      moves := state.moves + 1 }
    { state1 with score := max 0 (state1.score + getRecycleWastePenalty state1) }

/-- Mutation of the cards of the pile addressed by a location, used to
mirror the in-place pile mutations of executeMove and flipTableauCard
(including the aliasing when source and destination are the same
pile). -/
def setPileCards (state : GameState) (loc : CardLocation)
    (f : List Card → List Card) : GameState :=
  match loc.pileType with
  | .stock => { state with stock := { state.stock with cards := f state.stock.cards } }
  | .waste => { state with waste := { state.waste with cards := f state.waste.cards } }
  | .foundation =>
    match state.foundations[loc.pileIndex]? with
    | some pile =>
      { state with foundations :=
          state.foundations.set loc.pileIndex { pile with cards := f pile.cards } }
    | Option.none => state
  | .tableau =>
    match state.tableau[loc.pileIndex]? with
    | some pile =>
      { state with tableau :=
          state.tableau.set loc.pileIndex { pile with cards := f pile.cards } }
    | Option.none => state

/-- Translation of executeMove in game.ts.  The splice removes cardCount
cards of the source pile starting at from.cardIndex; the push appends
them to the destination pile; both steps go through setPileCards in
sequence so that a move within one pile behaves exactly like the JS
mutation of the shared array.  Validity guarantees both piles resolve,
so the defensive none branch is unreachable. -/
def executeMove (now : Int) (state : GameState) (fromLoc toLoc : CardLocation)
    (cardCount : Nat) : MoveResult :=
  if !isValidMove state fromLoc toLoc cardCount then mkFailure invalidMoveError
  else
    match getPile state fromLoc with
    | Option.none => mkFailure invalidMoveError
    | some sourcePile =>
      let movedCards := (sourcePile.cards.drop fromLoc.cardIndex).take cardCount
      let state1 := setPileCards state fromLoc
        (fun cards => cards.take fromLoc.cardIndex ++ cards.drop (fromLoc.cardIndex + cardCount))
      let state2 := setPileCards state1 toLoc (fun cards => cards ++ movedCards)
      let flipStep : GameState × Bool :=
        match getPile state2 fromLoc with
        | some sp =>
          if sp.type == .tableau && !sp.cards.isEmpty && state2.config.autoFlipTableau then
            match sp.cards.getLast? with
            | some topCard =>
              if !topCard.faceUp then
                (setPileCards state2 fromLoc
                  (fun cards => cards.set (cards.length - 1) (flipCard topCard true)), true)
              else (state2, false)
            | Option.none => (state2, false)
          else (state2, false)
        | Option.none => (state2, false)
      let state4 := { flipStep.1 with startTime := startTimer now flipStep.1.startTime }
      let scoreChange := calculateMoveScore ⟨fromLoc, toLoc, cardCount, flipStep.2, 0⟩ state4
      let move : Move := ⟨fromLoc, toLoc, cardCount, flipStep.2, scoreChange⟩
      let state5 := { state4 with score := state4.score + scoreChange, moves := state4.moves + 1 }
      let state6 :=
        if checkWinCondition state5 then { state5 with isWon := true, endTime := some now }
        else state5
      ⟨true, some state6, Option.none, some move⟩

/-- Translation of flipTableauCard in game.ts.  The index parameter is an
Int because the JS checks tableauIndex < 0 on a number.  For well-formed
states the tableau list has length 7, so the missing-pile branch is
unreachable; we give it the same failure shape as the range check. -/
def flipTableauCard (now : Int) (state : GameState) (tableauIndex : Int) : MoveResult :=
  if tableauIndex < 0 ∨ 7 <= tableauIndex then mkFailure invalidIndexError
  else
    match state.tableau[tableauIndex.toNat]? with
    | Option.none => mkFailure invalidIndexError
    | some tableau =>
      if tableau.cards.length == 0 then mkFailure tableauEmptyError
      else
        match tableau.cards.getLast? with
        | Option.none => mkFailure tableauEmptyError
        | some topCard =>
          if topCard.faceUp then mkFailure alreadyFaceUpError
          else
            let state1 := setPileCards state ⟨.tableau, tableauIndex.toNat, 0⟩
              (fun cards => cards.set (cards.length - 1) (flipCard topCard true))
            ⟨true, some { state1 with startTime := startTimer now state1.startTime },
              Option.none, Option.none⟩

/-- First foundation destination accepted by isValidMove for a single
card, checking foundations 0..3 in order; canAutoMove and
autoMoveToFoundation in game.ts each inline this same loop. -/
def firstFoundationDest (state : GameState) (fromLoc : CardLocation) : Option CardLocation :=
  (List.range 4).findSome? fun i =>
    match state.foundations[i]? with
    | Option.none => Option.none
    | some foundation =>
      let toLoc : CardLocation := ⟨.foundation, i, foundation.cards.length⟩
      if isValidMove state fromLoc toLoc 1 then some toLoc else Option.none

/-- First empty tableau column as a destination location, checking
columns 0..6 in order; canAutoMove and autoMoveToFoundation in game.ts
each inline this same loop. -/
def firstEmptyTableau (state : GameState) : Option CardLocation :=
  (List.range 7).findSome? fun i =>
    match state.tableau[i]? with
    | Option.none => Option.none
    | some t =>
      if t.cards.length == 0 then some (⟨.tableau, i, 0⟩ : CardLocation)
      else Option.none

/-- Translation of canAutoMove in game.ts. -/
def canAutoMove (state : GameState) (fromLoc : CardLocation) : Option CardLocation :=
  match getPile state fromLoc with
  | Option.none => Option.none
  | some sourcePile =>
    match sourcePile.cards[fromLoc.cardIndex]? with
    | Option.none => Option.none
    | some card =>
      if !card.faceUp then Option.none
      else if (fromLoc.cardIndex : Int) == (sourcePile.cards.length : Int) - 1 then
        match firstFoundationDest state fromLoc with
        | some toLoc => some toLoc
        | Option.none =>
          if card.rank == 13 then firstEmptyTableau state else Option.none
      else
        if card.rank == 13 then
          if (sourcePile.cards.drop fromLoc.cardIndex).all (·.faceUp) then
            firstEmptyTableau state
          else Option.none
        else Option.none

/-- Translation of autoMoveToFoundation in game.ts. -/
def autoMoveToFoundation (now : Int) (state : GameState) (fromLoc : CardLocation) : MoveResult :=
  match getPile state fromLoc with
  | Option.none => mkFailure invalidSourceError
  | some sourcePile =>
    if (fromLoc.cardIndex : Int) != (sourcePile.cards.length : Int) - 1 then
      match sourcePile.cards[fromLoc.cardIndex]? with
      | some card =>
        if card.faceUp && card.rank == 13 then
          if (sourcePile.cards.drop fromLoc.cardIndex).all (·.faceUp) then
            match firstEmptyTableau state with
            | some toLoc =>
              executeMove now state fromLoc toLoc (sourcePile.cards.length - fromLoc.cardIndex)
            | Option.none => mkFailure autoMoveKingError
          else mkFailure autoMoveKingError
        else mkFailure autoMoveKingError
      | Option.none => mkFailure autoMoveKingError
    else
      match sourcePile.cards[fromLoc.cardIndex]? with
      | Option.none => mkFailure cardNotAvailableError
      | some card =>
        if !card.faceUp then mkFailure cardNotAvailableError
        else
          match firstFoundationDest state fromLoc with
          | some toLoc => executeMove now state fromLoc toLoc 1
          | Option.none =>
            if card.rank == 13 then
              match firstEmptyTableau state with
              | some toLoc => executeMove now state fromLoc toLoc 1
              | Option.none => mkFailure noValidMoveError
            else mkFailure noValidMoveError

/-- Translation of autoCompleteStep in game.ts. -/
def autoCompleteStep (now : Int) (state : GameState) : Option GameState :=
  match findAutoCompleteMove state with
  | Option.none => Option.none
  | some locs =>
    let result := executeMove now state locs.1 locs.2 1
    if result.success then result.state else Option.none

/-- Translation of getAllCards in game.ts. -/
def getAllCards (state : GameState) : List Card :=
  state.stock.cards ++ state.waste.cards ++
    (state.foundations.map (·.cards)).flatten ++
    (state.tableau.map (·.cards)).flatten

/-- History entry, from the HistoryEntry interface in types.ts. -/
structure HistoryEntry where
  move : Move
  previousState : GameState
deriving DecidableEq

/-- Undo/redo log state of the GameHistory class in game.ts.  The mutable
methods become functions returning the updated history. -/
structure GameHistory where
  history : List HistoryEntry
  currentIndex : Int
deriving DecidableEq

/-- The maxHistory capacity of the GameHistory class. -/
def maxHistory : Nat :=
  100

/-- A freshly constructed GameHistory. -/
def emptyHistory : GameHistory :=
  ⟨[], -1⟩

/-- Translation of GameHistory.push.  The JS slice(0, currentIndex + 1)
has a non-negative end for every history the class can reach (the cursor
never goes below -1), which toNat reproduces. -/
def GameHistory.push (h : GameHistory) (entry : HistoryEntry) : GameHistory :=
  let hist := h.history.take (h.currentIndex + 1).toNat ++ [entry]
  let ci := h.currentIndex + 1
  if maxHistory < hist.length then ⟨hist.drop 1, ci - 1⟩ else ⟨hist, ci⟩

/-- Translation of GameHistory.canUndo. -/
def GameHistory.canUndo (h : GameHistory) : Bool :=
  decide (0 <= h.currentIndex)

/-- Translation of GameHistory.canRedo; the comparison against
length - 1 is on JS numbers, hence on Int. -/
def GameHistory.canRedo (h : GameHistory) : Bool :=
  decide (h.currentIndex < (h.history.length : Int) - 1)

/-- Translation of GameHistory.undo, returning the result together with
the updated history.  When canUndo holds the cursor is a valid index, so
the none branch (where the JS would fault on undefined) is
unreachable. -/
def GameHistory.undo (h : GameHistory) : Option GameState × GameHistory :=
  if !h.canUndo then (Option.none, h)
  else
    match h.history[h.currentIndex.toNat]? with
    | some entry => (some entry.previousState, ⟨h.history, h.currentIndex - 1⟩)
    | Option.none => (Option.none, ⟨h.history, h.currentIndex - 1⟩)

/-- Translation of GameHistory.redo, returning the result together with
the updated history. -/
def GameHistory.redo (h : GameHistory) : Option HistoryEntry × GameHistory :=
  if !h.canRedo then (Option.none, h)
  else (h.history[(h.currentIndex + 1).toNat]?, ⟨h.history, h.currentIndex + 1⟩)

/-- Translation of GameHistory.clear. -/
def GameHistory.clear (_ : GameHistory) : GameHistory :=
  ⟨[], -1⟩

/-- Translation of GameHistory.size. -/
def GameHistory.size (h : GameHistory) : Nat :=
  h.history.length

/-! Derived definitions used to state the properties: iterated drawing,
reachability of game states and of history states, and small concrete
fixture states. -/

/-- Repeated application of drawFromStock, used to state the
draw-until-the-stock-is-empty round trip. -/
def iterateDraw (now : Int) : Nat → GameState → GameState
  | 0, state => state
  | k + 1, state => iterateDraw now k (drawFromStock now state)

/-- Game states reachable from createInitialState through the
state-transition operations of game.ts. -/
inductive Reachable : GameState → Prop
  | init (config : GameConfig) (rand : RandSource) :
      Reachable (createInitialState config rand)
  | draw (now : Int) {s : GameState} :
      Reachable s → Reachable (drawFromStock now s)
  | reset {s : GameState} :
      Reachable s → Reachable (resetStock s)
  | move (now : Int) (fromLoc toLoc : CardLocation) (cardCount : Nat) {s s' : GameState} :
      Reachable s → (executeMove now s fromLoc toLoc cardCount).state = some s' →
      Reachable s'
  | flip (now : Int) (i : Int) {s s' : GameState} :
      Reachable s → (flipTableauCard now s i).state = some s' → Reachable s'
  | autoMove (now : Int) (fromLoc : CardLocation) {s s' : GameState} :
      Reachable s → (autoMoveToFoundation now s fromLoc).state = some s' →
      Reachable s'
  | autoStep (now : Int) {s s' : GameState} :
      Reachable s → autoCompleteStep now s = some s' → Reachable s'

/-- Operations of the GameHistory class. -/
inductive HistOp
  | push (entry : HistoryEntry)
  | undo
  | redo
  | clear

/-- Application of one history operation. -/
def applyHistOp (h : GameHistory) : HistOp → GameHistory
  | .push entry => h.push entry
  | .undo => h.undo.2
  | .redo => h.redo.2
  | .clear => h.clear

/-- Application of a sequence of history operations. -/
def applyHistOps : GameHistory → List HistOp → GameHistory
  | h, [] => h
  | h, op :: ops => applyHistOps (applyHistOp h op) ops

/-- Histories reachable from a fresh GameHistory; the TS fields are
private, so these are exactly the values the class can exhibit. -/
inductive HistReachable : GameHistory → Prop
  | base : HistReachable emptyHistory
  | step {h : GameHistory} (op : HistOp) : HistReachable h → HistReachable (applyHistOp h op)

/-- Cursor/length invariant of GameHistory: the cursor stays in
[-1, length) and the log never exceeds the capacity.  Every value the
class can reach satisfies it (see HistReachable). -/
def HistInv (h : GameHistory) : Prop :=
  -1 <= h.currentIndex ∧ h.currentIndex < (h.history.length : Int) ∧
    h.history.length <= 100

/-- Multiset of card identities of a list of cards. -/
def cardIds (cards : List Card) : Multiset CardId :=
  (cards.map Card.id : List CardId)

/-- Multiset of card identities held by a list of piles. -/
def pilesIds (piles : List Pile) : Multiset CardId :=
  (piles.map (fun p => cardIds p.cards)).sum

/-- Random source that always draws j = 0, used to instantiate
witnesses. -/
def zeroRand : RandSource :=
  fun i => ⟨0, Nat.succ_pos i⟩

/-- Test fixture: a game state whose piles are all empty, with the given
configuration. -/
def baseState (config : GameConfig) : GameState :=
  { stock := createPile .stock 0
    waste := createPile .waste 0
    foundations := [createPile .foundation 0, createPile .foundation 1,
      createPile .foundation 2, createPile .foundation 3]
    tableau := [createPile .tableau 0, createPile .tableau 1, createPile .tableau 2,
      createPile .tableau 3, createPile .tableau 4, createPile .tableau 5,
      createPile .tableau 6]
    score := 0
    moves := 0
    startTime := Option.none
    endTime := Option.none
    isWon := false
    stockPasses := 0
    config := config }

/-- Test fixture: a vegas game (unlimited passes) holding the -52 buy-in
score with one waste card, about to recycle. -/
def vegasResetState : GameState :=
  { baseState ⟨.drawOne, .vegas, true, false⟩ with
    score := -52
    waste := { createPile .waste 0 with cards := [createCard .hearts 1 true] } }

/-- Test fixture: a vegas game with limited passes already exhausted
(stockPasses = 3) and one stock card left. -/
def vegasBlockedState : GameState :=
  { baseState ⟨.drawOne, .vegas, false, false⟩ with
    stockPasses := 3
    stock := { createPile .stock 0 with cards := [createCard .hearts 1 false] } }

/-- Test fixture: a standard game with the five of hearts on the waste
and the six of spades face-up on tableau column 0. -/
def zeroCountState : GameState :=
  { baseState DEFAULT_CONFIG with
    waste := { createPile .waste 0 with cards := [createCard .hearts 5 true] }
    tableau := [{ createPile .tableau 0 with cards := [createCard .spades 6 true] },
      createPile .tableau 1, createPile .tableau 2, createPile .tableau 3,
      createPile .tableau 4, createPile .tableau 5, createPile .tableau 6] }

/-- Test fixture: a waste pile holding a face-up King of spades below a
face-up three of hearts, with every tableau column empty. -/
def autoMoveMismatchState : GameState :=
  { baseState DEFAULT_CONFIG with
    waste := { createPile .waste 0 with
      cards := [createCard .spades 13 true, createCard .hearts 3 true] } }

/-- Test fixture: a standard game with a single face-down stock card and
an empty waste, ready for a full draw-and-reset round trip. -/
def roundTripState : GameState :=
  { baseState DEFAULT_CONFIG with
    stock := { createPile .stock 0 with cards := [createCard .hearts 1 false] } }

/-- Test fixture: a history entry recording a waste-to-tableau move. -/
def exampleEntry : HistoryEntry :=
  ⟨⟨⟨.waste, 0, 0⟩, ⟨.tableau, 0, 0⟩, 1, false, 0⟩, baseState DEFAULT_CONFIG⟩

/-! Theorems.  Each claim of the specification is settled by one theorem
below; shared helper lemmas come first. -/

/-- C4 (amended): calculateTimeBonus returns 0 for every elapsed time of
at most 30 seconds, and floor(700000 / elapsedSeconds) capped at 700000
for every strictly larger elapsed time. -/
theorem calculateTimeBonus_spec (elapsedSeconds : Nat) :
    (elapsedSeconds <= 30 → calculateTimeBonus elapsedSeconds = 0) ∧
    (30 < elapsedSeconds →
      calculateTimeBonus elapsedSeconds = min (700000 / elapsedSeconds) 700000) := by
  constructor
  · intro h
    simp [calculateTimeBonus, h]
  · intro h
    simp [calculateTimeBonus, Nat.not_le.mpr h]

/-- C4 witness: the two branches of calculateTimeBonus_spec evaluated at
29 and 31 seconds. -/
theorem calculateTimeBonus_spec_witness :
    calculateTimeBonus 29 = 0 ∧ calculateTimeBonus 31 = min (700000 / 31) 700000 :=
  ⟨(calculateTimeBonus_spec 29).1 (by decide), (calculateTimeBonus_spec 31).2 (by decide)⟩

/-- C4 counterexample: at exactly 30 seconds the code returns 0, not
floor(700000 / 30) = 23333 as the claim states. -/
theorem calculateTimeBonus_at_thirty :
    calculateTimeBonus 30 = 0 ∧ calculateTimeBonus 30 ≠ 23333 := by
  decide

/-- C1 counterexample: a vegas game holding the -52 buy-in score
recycles with a zero penalty, yet resetStock changes the score,
raising it to 0. -/
theorem resetStock_vegas_score_changed :
    getRecycleWastePenalty vegasResetState = 0 ∧
    vegasResetState.score = -52 ∧
    vegasResetState.waste.cards.length ≠ 0 ∧
    (resetStock vegasResetState).score = 0 := by
  decide

/-- C1 (amended): when resetStock actually recycles (waste non-empty and
the reset permitted) and the recycle penalty is 0, the new score is
max 0 score: unchanged whenever the score was non-negative, but raised
to 0 when it was negative, because the clamp applies even with a zero
penalty. -/
theorem resetStock_score_zero_penalty (s : GameState)
    (hw : s.waste.cards.length ≠ 0)
    (hp : ¬(s.config.scoringMode = .vegas ∧ s.config.unlimitedPasses = false ∧
      3 <= s.stockPasses))
    (hpen : getRecycleWastePenalty s = 0) :
    (resetStock s).score = max 0 s.score := by
  have hguard : (s.config.scoringMode == ScoringMode.vegas && !s.config.unlimitedPasses &&
      decide (3 <= s.stockPasses)) = false := by
    rcases hv : s.config.scoringMode <;> rcases hu : s.config.unlimitedPasses <;>
      simp_all
  have hpen' : getRecycleWastePenalty
      { s with
        stock := { s.stock with cards := recycleRev s.stock.cards s.waste.cards.reverse }
        waste := { s.waste with cards := [] }
        stockPasses := s.stockPasses + 1
        moves := s.moves + 1 } = 0 := hpen
  simp [resetStock, hw, hguard, hpen']

/-- C1 witness: resetStock_score_zero_penalty applied to the concrete
vegas fixture, whose -52 score gets clamped to max 0 (-52) = 0. -/
theorem resetStock_score_zero_penalty_witness :
    (resetStock vegasResetState).score = max 0 vegasResetState.score :=
  resetStock_score_zero_penalty vegasResetState (by decide) (by decide) (by decide)

/-- C10: isValidMove accepts cardCount = 0 for a fitting tableau
destination, and executeMove then succeeds while moving nothing: the
waste and tableau piles are unchanged, yet the move counter increments
and the standard waste-to-tableau score of +5 is applied. -/
theorem executeMove_zero_cardCount :
    isValidMove zeroCountState ⟨.waste, 0, 0⟩ ⟨.tableau, 0, 1⟩ 0 = true ∧
    (executeMove 0 zeroCountState ⟨.waste, 0, 0⟩ ⟨.tableau, 0, 1⟩ 0).success = true ∧
    ((executeMove 0 zeroCountState ⟨.waste, 0, 0⟩ ⟨.tableau, 0, 1⟩ 0).state).map
      GameState.waste = some zeroCountState.waste ∧
    ((executeMove 0 zeroCountState ⟨.waste, 0, 0⟩ ⟨.tableau, 0, 1⟩ 0).state).map
      GameState.tableau = some zeroCountState.tableau ∧
    ((executeMove 0 zeroCountState ⟨.waste, 0, 0⟩ ⟨.tableau, 0, 1⟩ 0).state).map
      GameState.moves = some (zeroCountState.moves + 1) ∧
    ((executeMove 0 zeroCountState ⟨.waste, 0, 0⟩ ⟨.tableau, 0, 1⟩ 0).state).map
      GameState.score = some (zeroCountState.score + 5) := by
  decide

/-- Characterization of isValidMove: the check succeeds exactly when both
piles resolve, the source suffix can be picked up, the card count fits,
the moving card exists, and the destination accepts it by the foundation
or tableau placement rule. -/
theorem isValidMove_iff (state : GameState) (fromLoc toLoc : CardLocation)
    (cardCount : Nat) :
    isValidMove state fromLoc toLoc cardCount = true ↔
    ∃ sourcePile destPile movingCard,
      getPile state fromLoc = some sourcePile ∧
      getPile state toLoc = some destPile ∧
      canPickUpCards sourcePile fromLoc.cardIndex = true ∧
      (cardCount : Int) <= (sourcePile.cards.length : Int) - (fromLoc.cardIndex : Int) ∧
      sourcePile.cards[fromLoc.cardIndex]? = some movingCard ∧
      ((destPile.type = .foundation ∧ cardCount = 1 ∧
          canPlaceOnFoundation movingCard destPile = true) ∨
        (destPile.type = .tableau ∧ canPlaceOnTableau movingCard destPile = true)) := by
  unfold isValidMove
  rcases hs : getPile state fromLoc with _ | sp
  · simp
  rcases hd : getPile state toLoc with _ | dp
  · simp
  simp only [Option.some.injEq]
  cases hpick : canPickUpCards sp fromLoc.cardIndex
  · simp [hpick]
  rcases hmc : sp.cards[fromLoc.cardIndex]? with _ | mc
  · simp only [hmc]
    split <;> simp [hmc]
  rcases htype : dp.type
  all_goals simp only [htype, hmc]
  all_goals split
  all_goals
    simp_all [htype, hmc, not_lt, imp_false]

/-- Validity forces both locations to resolve to piles. -/
theorem isValidMove_piles {state : GameState} {fromLoc toLoc : CardLocation}
    {cardCount : Nat} (h : isValidMove state fromLoc toLoc cardCount = true) :
    ∃ sourcePile destPile,
      getPile state fromLoc = some sourcePile ∧ getPile state toLoc = some destPile := by
  obtain ⟨sp, dp, _, hs, hd, _⟩ := (isValidMove_iff state fromLoc toLoc cardCount).mp h
  exact ⟨sp, dp, hs, hd⟩

/-- C5: isValidMove rejects every move to a stock or waste destination,
every multi-card move to a foundation, every non-Ace placed on an empty
foundation, every non-King placed on an empty tableau, and every card
placed on a non-empty tableau whose top card has the same colour or is
not exactly one rank higher. -/
theorem isValidMove_rejections (state : GameState) (fromLoc toLoc : CardLocation)
    (cardCount : Nat) (destPile : Pile)
    (hdest : getPile state toLoc = some destPile) :
    ((destPile.type = .stock ∨ destPile.type = .waste) →
      isValidMove state fromLoc toLoc cardCount = false) ∧
    (destPile.type = .foundation → 1 < cardCount →
      isValidMove state fromLoc toLoc cardCount = false) ∧
    (∀ sourcePile movingCard,
      getPile state fromLoc = some sourcePile →
      sourcePile.cards[fromLoc.cardIndex]? = some movingCard →
      (destPile.type = .foundation → destPile.cards = [] → movingCard.rank ≠ 1 →
        isValidMove state fromLoc toLoc cardCount = false) ∧
      (destPile.type = .tableau → destPile.cards = [] → movingCard.rank ≠ 13 →
        isValidMove state fromLoc toLoc cardCount = false) ∧
      (∀ topCard, destPile.type = .tableau →
        destPile.cards.getLast? = some topCard →
        (getCardColour movingCard = getCardColour topCard ∨
          (movingCard.rank : Int) ≠ (topCard.rank : Int) - 1) →
        isValidMove state fromLoc toLoc cardCount = false)) := by
  refine ⟨?_, ?_, ?_⟩
  · intro hty
    cases hv : isValidMove state fromLoc toLoc cardCount
    · rfl
    obtain ⟨sp, dp, mc, hs, hd, _, _, _, hrest⟩ :=
      (isValidMove_iff state fromLoc toLoc cardCount).mp hv
    rw [hdest] at hd
    cases hd
    rcases hrest with ⟨hf, _⟩ | ⟨ht, _⟩ <;> rcases hty with h | h <;> simp_all
  · intro hty hcnt
    cases hv : isValidMove state fromLoc toLoc cardCount
    · rfl
    obtain ⟨sp, dp, mc, hs, hd, _, _, _, hrest⟩ :=
      (isValidMove_iff state fromLoc toLoc cardCount).mp hv
    rw [hdest] at hd
    cases hd
    rcases hrest with ⟨hf, hone, _⟩ | ⟨ht, _⟩ <;> simp_all
  · intro sourcePile movingCard hsrc hmc
    refine ⟨?_, ?_, ?_⟩
    · intro hty hempty hrank
      cases hv : isValidMove state fromLoc toLoc cardCount
      · rfl
      obtain ⟨sp, dp, mc, hs, hd, _, _, hm, hrest⟩ :=
        (isValidMove_iff state fromLoc toLoc cardCount).mp hv
      rw [hdest] at hd
      rw [hsrc] at hs
      cases hd
      cases hs
      rw [hmc] at hm
      cases hm
      rcases hrest with ⟨hf, _, hplace⟩ | ⟨ht, _⟩
      · rw [canPlaceOnFoundation, hempty] at hplace
        simp_all
      · simp_all
    · intro hty hempty hrank
      cases hv : isValidMove state fromLoc toLoc cardCount
      · rfl
      obtain ⟨sp, dp, mc, hs, hd, _, _, hm, hrest⟩ :=
        (isValidMove_iff state fromLoc toLoc cardCount).mp hv
      rw [hdest] at hd
      rw [hsrc] at hs
      cases hd
      cases hs
      rw [hmc] at hm
      cases hm
      rcases hrest with ⟨hf, _⟩ | ⟨ht, hplace⟩
      · simp_all
      · rw [canPlaceOnTableau, hempty] at hplace
        simp_all
    · intro topCard hty htop hbad
      cases hv : isValidMove state fromLoc toLoc cardCount
      · rfl
      obtain ⟨sp, dp, mc, hs, hd, _, _, hm, hrest⟩ :=
        (isValidMove_iff state fromLoc toLoc cardCount).mp hv
      rw [hdest] at hd
      rw [hsrc] at hs
      cases hd
      cases hs
      rw [hmc] at hm
      cases hm
      rcases hrest with ⟨hf, _⟩ | ⟨ht, hplace⟩
      · simp_all
      · rw [canPlaceOnTableau, htop] at hplace
        rcases hup : topCard.faceUp <;> simp_all

/-- C5 witness: the rejection of a waste destination, evaluated on the
zero-count fixture state. -/
theorem isValidMove_rejections_witness :
    isValidMove zeroCountState ⟨.tableau, 0, 0⟩ ⟨.waste, 0, 1⟩ 1 = false :=
  (isValidMove_rejections zeroCountState ⟨.tableau, 0, 0⟩ ⟨.waste, 0, 1⟩ 1
    zeroCountState.waste (by decide)).1 (Or.inr (by decide))

/-- C6: executeMove returns a failure exactly when isValidMove rejects
the move, and in that case the result is precisely the bare failure
record (no state, no move, the invalid-move error), so nothing of the
input state is consumed or changed; validity always yields success. -/
theorem executeMove_failure_iff (now : Int) (state : GameState)
    (fromLoc toLoc : CardLocation) (cardCount : Nat) :
    ((executeMove now state fromLoc toLoc cardCount).success = false ↔
      isValidMove state fromLoc toLoc cardCount = false) ∧
    (isValidMove state fromLoc toLoc cardCount = false →
      executeMove now state fromLoc toLoc cardCount = mkFailure invalidMoveError) := by
  cases hv : isValidMove state fromLoc toLoc cardCount
  · refine ⟨by simp [executeMove, hv, mkFailure], fun _ => by simp [executeMove, hv]⟩
  · obtain ⟨sp, dp, hs, hd⟩ := isValidMove_piles hv
    refine ⟨?_, fun h => by simp_all⟩
    simp [executeMove, hv, hs]

/-- C9: flipTableauCard fails exactly when the index is outside [0,7),
the column is empty, or its top card is already face-up; every failure
carries an error message and no state; on success the returned state
only flips the top card of column i face-up and starts the timer if it
was unset, leaving the score, the move counter and every other pile
unchanged. -/
theorem flipTableauCard_spec (now : Int) (s : GameState) (i : Int)
    (hlen : s.tableau.length = 7) :
    ((flipTableauCard now s i).success = false ↔
      (i < 0 ∨ 7 <= i ∨ ∃ tPile, s.tableau[i.toNat]? = some tPile ∧
        (tPile.cards = [] ∨
          ∃ topCard, tPile.cards.getLast? = some topCard ∧ topCard.faceUp = true))) ∧
    ((flipTableauCard now s i).success = false →
      (flipTableauCard now s i).state = Option.none ∧
      ((flipTableauCard now s i).error).isSome = true) ∧
    (∀ s', (flipTableauCard now s i).state = some s' →
      s'.score = s.score ∧ s'.moves = s.moves ∧ s'.stock = s.stock ∧
      s'.waste = s.waste ∧ s'.foundations = s.foundations ∧
      s'.endTime = s.endTime ∧ s'.isWon = s.isWon ∧
      s'.stockPasses = s.stockPasses ∧ s'.config = s.config ∧
      s'.startTime = startTimer now s.startTime ∧
      (∀ j, j ≠ i.toNat → s'.tableau[j]? = s.tableau[j]?) ∧
      ∃ tPile topCard, s.tableau[i.toNat]? = some tPile ∧
        tPile.cards.getLast? = some topCard ∧ topCard.faceUp = false ∧
        s'.tableau[i.toNat]? = some { tPile with
          cards := tPile.cards.set (tPile.cards.length - 1) (flipCard topCard true) }) := by
  by_cases hrange : i < 0 ∨ 7 <= i
  · refine ⟨⟨fun _ => ?_, fun _ => by simp [flipTableauCard, hrange, mkFailure]⟩, ?_, ?_⟩
    · rcases hrange with h | h
      · exact Or.inl h
      · exact Or.inr (Or.inl h)
    · intro
      simp [flipTableauCard, hrange, mkFailure]
    · intro s' hs'
      simp [flipTableauCard, hrange, mkFailure] at hs'
  · have hi : i.toNat < s.tableau.length := by
      rw [hlen]; omega
    have htp : s.tableau[i.toNat]? = some (s.tableau.get ⟨i.toNat, hi⟩) :=
      List.getElem?_eq_getElem hi
    set tPile := s.tableau.get ⟨i.toNat, hi⟩ with htPile
    by_cases hne : tPile.cards = []
    · have hlen0 : (tPile.cards.length == 0) = true := by rw [hne]; rfl
      refine ⟨?_, ?_, ?_⟩
      · refine ⟨fun _ => Or.inr (Or.inr ⟨tPile, htp, Or.inl hne⟩), fun _ => ?_⟩
        simp [flipTableauCard, hrange, htp, hlen0, mkFailure]
      · intro
        simp [flipTableauCard, hrange, htp, hlen0, mkFailure]
      · intro s' hs'
        simp [flipTableauCard, hrange, htp, hlen0, mkFailure] at hs'
    · have hlen0 : (tPile.cards.length == 0) = false := by
        rcases hc : tPile.cards
        · exact absurd hc hne
        · rfl
      obtain ⟨topCard, hlast⟩ : ∃ x, tPile.cards.getLast? = some x := by
        cases hl : tPile.cards.getLast? with
        | none => exact absurd (List.getLast?_eq_none_iff.mp hl) hne
        | some x => exact ⟨x, rfl⟩
      rcases hface : topCard.faceUp
      · have hresult : flipTableauCard now s i =
            ⟨true, some { s with
              tableau := s.tableau.set i.toNat { tPile with
                cards := tPile.cards.set (tPile.cards.length - 1) (flipCard topCard true) }
              startTime := startTimer now s.startTime },
              Option.none, Option.none⟩ := by
          simp [flipTableauCard, hrange, htp, hlen0, hlast, hface, setPileCards]
        refine ⟨?_, ?_, ?_⟩
        · rw [hresult]
          simp only [MoveResult.success]
          constructor
          · intro h
            exact absurd h (by simp)
          · rintro (h | h | ⟨tPile', htp', hbad⟩)
            · exact absurd h (by omega)
            · exact absurd h (by omega)
            · rw [htp] at htp'
              cases htp'
              rcases hbad with h | ⟨top', hl', hup'⟩
              · exact absurd h hne
              · rw [hlast] at hl'
                cases hl'
                rw [hface] at hup'
                exact absurd hup' (by simp)
        · rw [hresult]
          intro h
          exact absurd h (by simp)
        · intro s' hs'
          rw [hresult] at hs'
          simp only [MoveResult.state, Option.some.injEq] at hs'
          subst hs'
          refine ⟨rfl, rfl, rfl, rfl, rfl, rfl, rfl, rfl, rfl, rfl, ?_, ?_⟩
          · intro j hj
            exact List.getElem?_set_ne (fun h => hj h.symm)
          · exact ⟨tPile, topCard, htp, hlast, hface, by
              simp [List.getElem?_set_self hi]⟩
      · refine ⟨?_, ?_, ?_⟩
        · refine ⟨fun _ => Or.inr (Or.inr ⟨tPile, htp, Or.inr ⟨topCard, hlast, hface⟩⟩),
            fun _ => ?_⟩
          simp [flipTableauCard, hrange, htp, hlen0, hlast, hface, mkFailure]
        · intro
          simp [flipTableauCard, hrange, htp, hlen0, hlast, hface, mkFailure]
        · intro s' hs'
          simp [flipTableauCard, hrange, htp, hlen0, hlast, hface, mkFailure] at hs'

/-- C9 witness: flipTableauCard_spec evaluated on the zero-count fixture
state, whose tableau has the required length 7. -/
theorem flipTableauCard_spec_witness :
    (flipTableauCard 0 zeroCountState 0).success = false ↔
      ((0 : Int) < 0 ∨ 7 <= (0 : Int) ∨
        ∃ tPile, zeroCountState.tableau[(0 : Int).toNat]? = some tPile ∧
          (tPile.cards = [] ∨
            ∃ topCard, tPile.cards.getLast? = some topCard ∧ topCard.faceUp = true)) :=
  (flipTableauCard_spec 0 zeroCountState 0 (by decide)).1

/-- C6 witness: a move out of the empty waste pile of the base fixture is
invalid, and executeMove returns exactly the failure record for it. -/
theorem executeMove_failure_iff_witness :
    executeMove 0 (baseState DEFAULT_CONFIG) ⟨.waste, 0, 0⟩ ⟨.stock, 0, 0⟩ 1 =
      mkFailure invalidMoveError :=
  (executeMove_failure_iff 0 (baseState DEFAULT_CONFIG) ⟨.waste, 0, 0⟩
    ⟨.stock, 0, 0⟩ 1).2 (by decide)

/-- Effect of GameHistory.push under the cursor invariant: the invariant
is preserved, the pushed entry sits at the new cursor, the new cursor is
the last index, and the new size is min(currentIndex + 2, 100). -/
theorem push_facts (h : GameHistory) (e : HistoryEntry) (hinv : HistInv h) :
    HistInv (h.push e) ∧
    (h.push e).history[(h.push e).currentIndex.toNat]? = some e ∧
    (h.push e).currentIndex = ((h.push e).history.length : Int) - 1 ∧
    (h.push e).history.length = min ((h.currentIndex + 2).toNat) 100 := by
  obtain ⟨h1, h2, h3⟩ := hinv
  have htle : (h.currentIndex + 1).toNat <= h.history.length := by omega
  have hlt : (h.history.take (h.currentIndex + 1).toNat).length =
      (h.currentIndex + 1).toNat := by
    rw [List.length_take]
    omega
  have hcat : (h.history.take (h.currentIndex + 1).toNat ++ [e]).length =
      (h.currentIndex + 1).toNat + 1 := by
    rw [List.length_append, hlt]
    rfl
  unfold GameHistory.push HistInv
  simp only [maxHistory]
  by_cases hcap :
      100 < (h.history.take (h.currentIndex + 1).toNat ++ [e]).length
  · rw [if_pos hcap]
    rw [hcat] at hcap
    have ht100 : (h.currentIndex + 1).toNat = 100 := by omega
    have hci : h.currentIndex = 99 := by omega
    have hdlen : ((h.history.take (h.currentIndex + 1).toNat ++ [e]).drop 1).length = 100 := by
      rw [List.length_drop, hcat]
      omega
    refine ⟨⟨by simp; omega, by rw [hdlen]; simp; omega, by rw [hdlen]⟩, ?_, ?_, ?_⟩
    · show ((h.history.take (h.currentIndex + 1).toNat ++ [e]).drop 1)[(h.currentIndex + 1 - 1).toNat]? = some e
      rw [List.getElem?_drop]
      have : 1 + (h.currentIndex + 1 - 1).toNat =
          (h.history.take (h.currentIndex + 1).toNat).length := by
        rw [hlt]
        omega
      rw [this, List.getElem?_concat_length]
    · show h.currentIndex + 1 - 1 = (((h.history.take (h.currentIndex + 1).toNat ++ [e]).drop 1).length : Int) - 1
      rw [hdlen]
      omega
    · show ((h.history.take (h.currentIndex + 1).toNat ++ [e]).drop 1).length =
        min ((h.currentIndex + 2).toNat) 100
      rw [hdlen]
      omega
  · rw [if_neg hcap]
    rw [hcat] at hcap
    refine ⟨⟨?_, ?_, ?_⟩, ?_, ?_, ?_⟩
    · dsimp only
      omega
    · dsimp only
      rw [hcat]
      omega
    · dsimp only
      rw [hcat]
      omega
    · show (h.history.take (h.currentIndex + 1).toNat ++ [e])[(h.currentIndex + 1).toNat]? = some e
      have haux := List.getElem?_concat_length (h.history.take (h.currentIndex + 1).toNat) e
      rw [hlt] at haux
      exact haux
    · show h.currentIndex + 1 =
        (((h.history.take (h.currentIndex + 1).toNat ++ [e]).length : Nat) : Int) - 1
      rw [hcat]
      omega
    · show (h.history.take (h.currentIndex + 1).toNat ++ [e]).length =
        min ((h.currentIndex + 2).toNat) 100
      rw [hcat]
      omega

/-- Each GameHistory operation preserves the cursor invariant. -/
theorem histInv_step (h : GameHistory) (hinv : HistInv h) (op : HistOp) :
    HistInv (applyHistOp h op) := by
  obtain ⟨h1, h2, h3⟩ := hinv
  rcases op with e | _ | _ | _
  · exact (push_facts h e ⟨h1, h2, h3⟩).1
  · show HistInv h.undo.2
    unfold GameHistory.undo
    cases hcu : h.canUndo
    · simpa using ⟨h1, h2, h3⟩
    · unfold GameHistory.canUndo at hcu
      have h0 : 0 <= h.currentIndex := of_decide_eq_true hcu
      cases hget : h.history[h.currentIndex.toNat]? <;>
        simp only [Bool.not_true, Bool.false_eq_true, if_false, HistInv] <;>
        exact ⟨by omega, by omega, h3⟩
  · show HistInv h.redo.2
    unfold GameHistory.redo
    cases hcr : h.canRedo
    · simpa using ⟨h1, h2, h3⟩
    · unfold GameHistory.canRedo at hcr
      have h0 : h.currentIndex < (h.history.length : Int) - 1 := of_decide_eq_true hcr
      simp only [Bool.not_true, Bool.false_eq_true, if_false, HistInv]
      exact ⟨by omega, by omega, h3⟩
  · refine ⟨?_, ?_, ?_⟩ <;> simp [applyHistOp, GameHistory.clear]

/-- Every reachable GameHistory satisfies the cursor invariant. -/
theorem histReachable_inv {h : GameHistory} (hr : HistReachable h) : HistInv h := by
  induction hr with
  | base => exact ⟨by norm_num [emptyHistory], by norm_num [emptyHistory], by norm_num [emptyHistory]⟩
  | step op _ ih => exact histInv_step _ ih op

/-- C8: for every reachable GameHistory, undo immediately after a push
returns exactly the pushed previousState; after any push (in particular
one following an undo) canRedo is false and the size is
min(currentIndex + 2, 100), reflecting that the entries beyond the
cursor (a discarded redo branch) are truncated and at most one oldest
entry is evicted at capacity; and the size never exceeds the capacity
of 100. -/
theorem gameHistory_spec (h : GameHistory) (hr : HistReachable h) :
    (∀ e, ((h.push e).undo).1 = some e.previousState) ∧
    (∀ e, (h.push e).canRedo = false ∧
      (h.push e).size = min ((h.currentIndex + 2).toNat) 100) ∧
    h.size <= 100 := by
  obtain ⟨h1, h2, h3⟩ := histReachable_inv hr
  refine ⟨?_, ?_, h3⟩
  · intro e
    obtain ⟨⟨g1, g2, g3⟩, hget, hci, hlen⟩ := push_facts h e ⟨h1, h2, h3⟩
    have hlen1 : 1 <= (h.push e).history.length := by
      rw [hlen]
      omega
    have hcu : (h.push e).canUndo = true := by
      unfold GameHistory.canUndo
      rw [decide_eq_true_eq]
      omega
    unfold GameHistory.undo
    rw [hcu]
    simp only [Bool.not_true, Bool.false_eq_true, if_false]
    rw [hget]
  · intro e
    obtain ⟨⟨g1, g2, g3⟩, hget, hci, hlen⟩ := push_facts h e ⟨h1, h2, h3⟩
    refine ⟨?_, hlen⟩
    unfold GameHistory.canRedo
    rw [decide_eq_false_iff_not]
    omega

/-- C8 witness: gameHistory_spec on the fresh history with the concrete
example entry: undo after push returns its previousState, canRedo is
false after the push, the new size is min(-1 + 2, 100) = 1, and the
fresh size 0 is at most 100. -/
theorem gameHistory_spec_witness :
    ((emptyHistory.push exampleEntry).undo).1 = some exampleEntry.previousState ∧
    (emptyHistory.push exampleEntry).canRedo = false ∧
    emptyHistory.size <= 100 :=
  ⟨(gameHistory_spec emptyHistory HistReachable.base).1 exampleEntry,
    ((gameHistory_spec emptyHistory HistReachable.base).2.1 exampleEntry).1,
    (gameHistory_spec emptyHistory HistReachable.base).2.2⟩

/-- Unfolded form of flipCard: the no-op branch returns an equal value. -/
theorem flipCard_eq (c : Card) (b : Bool) : flipCard c b = { c with faceUp := b } := by
  cases c with
  | mk id suit rank faceUp =>
    unfold flipCard
    split
    · next h =>
      simp only [beq_iff_eq] at h
      rw [← h]
    · rfl

/-- Splitting a drop at an earlier cut: the tail of the take prefix
followed by the drop suffix is the drop at the smaller index. -/
theorem take_drop_segment (l : List Card) (m0 m' : Nat) (h : m0 <= l.length) :
    (l.take m0).drop m' ++ l.drop m0 = l.drop (min m' m0) := by
  rcases le_total m' m0 with hle | hle
  · rw [min_eq_left hle, List.drop_take]
    have hdd : l.drop m0 = (l.drop m').drop (m0 - m') := by
      rw [List.drop_drop]
      congr 1
      omega
    rw [hdd, List.take_append_drop]
  · rw [min_eq_right hle]
    have hnil : (l.take m0).drop m' = [] := by
      apply List.drop_eq_nil_of_le
      rw [List.length_take]
      omega
    rw [hnil, List.nil_append]

/-- Closed form of the draw loop: popping n cards off the end of the
stock appends them, reversed and face-up, to the waste. -/
theorem drawLoopCards_spec (n : Nat) (stock waste : List Card)
    (h : n <= stock.length) :
    drawLoopCards n stock waste =
      (stock.take (stock.length - n),
        waste ++ ((stock.drop (stock.length - n)).reverse.map
          (fun c => flipCard c true))) := by
  induction n generalizing stock waste with
  | zero =>
    simp [drawLoopCards]
  | succ n ih =>
    have hne : stock ≠ [] := by
      intro he
      rw [he] at h
      simp at h
    rw [drawLoopCards, List.getLast?_eq_getLast stock hne]
    have hlen : stock.dropLast.length = stock.length - 1 := List.length_dropLast stock
    have hle : n <= stock.dropLast.length := by omega
    dsimp only
    rw [ih stock.dropLast _ hle]
    have hsplit : stock.drop (stock.length - (n + 1)) =
        stock.dropLast.drop (stock.dropLast.length - n) ++ [stock.getLast hne] := by
      have hx := @List.drop_append_eq_append_drop _ stock.dropLast
        [stock.getLast hne] (stock.length - (n + 1))
      rw [List.dropLast_concat_getLast hne] at hx
      have hk : stock.dropLast.length - n = stock.length - (n + 1) := by omega
      rw [hk, hx]
      congr 1
      have h0 : stock.length - (n + 1) - stock.dropLast.length = 0 := by omega
      rw [h0, List.drop_zero]
    simp only [Prod.mk.injEq]
    constructor
    · rw [hlen, List.dropLast_eq_take, List.take_take]
      congr 1
      omega
    · rw [List.append_assoc]
      congr 1
      rw [hsplit, List.reverse_append, List.map_append]
      simp

/-- Field-level effect of one drawFromStock: some suffix of the stock
moves, reversed and face-up, to the end of the waste; foundations,
tableau, score, stockPasses and config are untouched. -/
theorem drawFromStock_fields (now : Int) (s : GameState) :
    ∃ m0, m0 <= s.stock.cards.length ∧
      (drawFromStock now s).stock.cards = s.stock.cards.take m0 ∧
      (drawFromStock now s).waste.cards = s.waste.cards ++
        ((s.stock.cards.drop m0).reverse.map (fun c => flipCard c true)) ∧
      (drawFromStock now s).stockPasses = s.stockPasses ∧
      (drawFromStock now s).config = s.config := by
  by_cases hemp : s.stock.cards.length = 0
  · have hnil : s.stock.cards = [] := List.length_eq_zero.mp hemp
    refine ⟨0, Nat.zero_le _, ?_, ?_, ?_, ?_⟩ <;>
      simp [drawFromStock, hemp, hnil]
  · have hbeq : (s.stock.cards.length == 0) = false := by
      simpa using hemp
    have hcle : min (if s.config.drawMode == DrawMode.drawThree then 3 else 1)
        s.stock.cards.length <= s.stock.cards.length := min_le_right _ _
    have hdraw := drawLoopCards_spec
      (min (if s.config.drawMode == DrawMode.drawThree then 3 else 1)
        s.stock.cards.length) s.stock.cards s.waste.cards hcle
    refine ⟨s.stock.cards.length -
      min (if s.config.drawMode == DrawMode.drawThree then 3 else 1)
        s.stock.cards.length, by omega, ?_, ?_, ?_, ?_⟩ <;>
      simp only [drawFromStock, hbeq, Bool.false_eq_true, if_false, hdraw]

/-- Field-level effect of iterated drawing: a prefix of the stock
remains, and the removed suffix sits reversed and face-up at the end of
the waste; stockPasses and config are untouched. -/
theorem iterateDraw_spec (now : Int) (k : Nat) (s : GameState) :
    ∃ m, m <= s.stock.cards.length ∧
      (iterateDraw now k s).stock.cards = s.stock.cards.take m ∧
      (iterateDraw now k s).waste.cards = s.waste.cards ++
        ((s.stock.cards.drop m).reverse.map (fun c => flipCard c true)) ∧
      (iterateDraw now k s).stockPasses = s.stockPasses ∧
      (iterateDraw now k s).config = s.config := by
  induction k generalizing s with
  | zero =>
    exact ⟨s.stock.cards.length, le_refl _, by simp [iterateDraw],
      by simp [iterateDraw], rfl, rfl⟩
  | succ k ih =>
    obtain ⟨m0, hm0, hst0, hwa0, hsp0, hcf0⟩ := drawFromStock_fields now s
    obtain ⟨m', hm', hst', hwa', hsp', hcf'⟩ := ih (drawFromStock now s)
    have hl0 : (drawFromStock now s).stock.cards.length = m0 := by
      rw [hst0, List.length_take]
      omega
    refine ⟨min m' m0, by omega, ?_, ?_, ?_, ?_⟩
    · show (iterateDraw now k (drawFromStock now s)).stock.cards = _
      rw [hst', hst0, List.take_take]
    · show (iterateDraw now k (drawFromStock now s)).waste.cards = _
      rw [hwa', hwa0, hst0, List.append_assoc]
      congr 1
      rw [← take_drop_segment s.stock.cards m0 m' hm0,
        List.reverse_append, List.map_append]
    · show (iterateDraw now k (drawFromStock now s)).stockPasses = _
      rw [hsp', hsp0]
    · show (iterateDraw now k (drawFromStock now s)).config = _
      rw [hcf', hcf0]

/-- Closed form of the recycle loop: the already-reversed waste cards
are appended face-down to the stock. -/
theorem recycleRev_spec (stock waste : List Card) :
    recycleRev stock waste = stock ++ waste.map (fun c => flipCard c false) := by
  induction waste generalizing stock with
  | nil => simp [recycleRev]
  | cons c rest ih =>
    rw [recycleRev, ih, List.map_cons, List.append_assoc]
    rfl

/-- C7 (amended): from a state with a non-empty stock and an empty
waste, drawing until the stock is empty and then resetting restores the
stock to the same cards in the same order, all face-down, empties the
waste and increments stockPasses by one -- provided the reset is
permitted, i.e. not in vegas mode with limited passes and three passes
already used (in that blocked case resetStock is a no-op and the claim
fails, see the counterexample). -/
theorem draw_all_then_reset (now : Int) (s : GameState) (k : Nat)
    (hstock : s.stock.cards ≠ [])
    (hwaste : s.waste.cards = [])
    (hperm : ¬(s.config.scoringMode = .vegas ∧ s.config.unlimitedPasses = false ∧
      3 <= s.stockPasses))
    (hempty : (iterateDraw now k s).stock.cards = []) :
    (resetStock (iterateDraw now k s)).stock.cards =
      s.stock.cards.map (fun c => flipCard c false) ∧
    (resetStock (iterateDraw now k s)).waste.cards = [] ∧
    (resetStock (iterateDraw now k s)).stockPasses = s.stockPasses + 1 := by
  obtain ⟨m, hm, hst, hwa, hsp, hcf⟩ := iterateDraw_spec now k s
  have hm0 : m = 0 := by
    rw [hst] at hempty
    rcases List.take_eq_nil_iff.mp hempty with h | h
    · exact h
    · exact absurd h hstock
  subst hm0
  rw [hwaste, List.drop_zero, List.nil_append] at hwa
  have hwne : (iterateDraw now k s).waste.cards.length ≠ 0 := by
    rw [hwa]
    simp only [List.length_map, List.length_reverse, ne_eq]
    intro h
    exact hstock (List.length_eq_zero.mp h)
  have hwbeq : ((iterateDraw now k s).waste.cards.length == 0) = false := by
    simpa using hwne
  have hguard : ((iterateDraw now k s).config.scoringMode == ScoringMode.vegas &&
      !(iterateDraw now k s).config.unlimitedPasses &&
      decide (3 <= (iterateDraw now k s).stockPasses)) = false := by
    rw [hcf, hsp]
    rcases hv : s.config.scoringMode <;> rcases hu : s.config.unlimitedPasses <;>
      simp_all
  refine ⟨?_, ?_, ?_⟩
  · simp only [resetStock, hwbeq, Bool.false_eq_true, if_false, hguard]
    rw [recycleRev_spec, hst, hwa]
    rw [List.take_zero, List.nil_append, ← List.map_reverse, List.reverse_reverse,
      List.map_map]
    have hcomp : ((fun c => flipCard c false) ∘ (fun c => flipCard c true)) =
        (fun c : Card => flipCard c false) := by
      funext c
      simp [Function.comp, flipCard_eq]
    rw [hcomp]
  · simp only [resetStock, hwbeq, Bool.false_eq_true, if_false, hguard]
  · simp only [resetStock, hwbeq, Bool.false_eq_true, if_false, hguard]
    rw [hsp]

/-- C7 witness: the full round trip on the one-card fixture: one draw
empties the stock, and the reset restores the original stock face-down,
empties the waste and bumps stockPasses. -/
theorem draw_all_then_reset_witness :
    (resetStock (iterateDraw 0 1 roundTripState)).stock.cards =
      roundTripState.stock.cards.map (fun c => flipCard c false) ∧
    (resetStock (iterateDraw 0 1 roundTripState)).waste.cards = [] ∧
    (resetStock (iterateDraw 0 1 roundTripState)).stockPasses =
      roundTripState.stockPasses + 1 :=
  draw_all_then_reset 0 roundTripState 1 (by decide) (by decide) (by decide) (by decide)

/-- C7 counterexample: in vegas mode with limited passes exhausted,
drawing the last stock card and resetting leaves the stock empty and the
pass counter unchanged, so the round trip fails as claimed. -/
theorem draw_all_then_reset_blocked :
    vegasBlockedState.stock.cards ≠ [] ∧
    vegasBlockedState.waste.cards = [] ∧
    (iterateDraw 0 1 vegasBlockedState).stock.cards = [] ∧
    (resetStock (iterateDraw 0 1 vegasBlockedState)).stock.cards = [] ∧
    (resetStock (iterateDraw 0 1 vegasBlockedState)).stockPasses =
      vegasBlockedState.stockPasses := by
  decide

/-- Dropping everything but the last element leaves the last element. -/
theorem drop_length_sub_one {l : List Card} (h : l ≠ []) :
    l.drop (l.length - 1) = [l.getLast h] := by
  have hx := @List.drop_append_eq_append_drop _ l.dropLast [l.getLast h] (l.length - 1)
  rw [List.dropLast_concat_getLast h] at hx
  have h1 : l.dropLast.length = l.length - 1 := List.length_dropLast l
  rw [hx, List.drop_eq_nil_of_le (by omega), List.nil_append]
  have h0 : l.length - 1 - l.dropLast.length = 0 := by omega
  rw [h0, List.drop_zero]

/-- A destination returned by the foundation scan is a validated
single-card move. -/
theorem firstFoundationDest_valid {state : GameState} {fromLoc toLoc : CardLocation}
    (h : firstFoundationDest state fromLoc = some toLoc) :
    isValidMove state fromLoc toLoc 1 = true := by
  obtain ⟨i, _, hf⟩ := List.exists_of_findSome?_eq_some h
  rcases hg : state.foundations[i]? with _ | f <;> rw [hg] at hf
  · exact absurd hf (by simp)
  · dsimp only at hf
    split at hf
    · next hv =>
      cases hf
      exact hv
    · exact absurd hf (by simp)

/-- A destination returned by the empty-column scan is an empty tableau
column addressed at card index 0. -/
theorem firstEmptyTableau_spec {state : GameState} {dest : CardLocation}
    (h : firstEmptyTableau state = some dest) :
    dest.pileType = .tableau ∧ dest.cardIndex = 0 ∧
    ∃ t, state.tableau[dest.pileIndex]? = some t ∧ t.cards = [] := by
  obtain ⟨i, _, hf⟩ := List.exists_of_findSome?_eq_some h
  rcases hg : state.tableau[i]? with _ | t <;> rw [hg] at hf
  · exact absurd hf (by simp)
  · dsimp only at hf
    split at hf
    · next hlen =>
      cases hf
      refine ⟨rfl, rfl, t, hg, ?_⟩
      simpa using hlen
    · exact absurd hf (by simp)

/-- A validated move always executes successfully, and the committed
move record carries the requested destination. -/
theorem executeMove_valid (now : Int) {state : GameState}
    {fromLoc toLoc : CardLocation} {cardCount : Nat}
    (h : isValidMove state fromLoc toLoc cardCount = true) :
    (executeMove now state fromLoc toLoc cardCount).success = true ∧
    ((executeMove now state fromLoc toLoc cardCount).move).map Move.toLoc =
      some toLoc := by
  obtain ⟨sp, dp, hs, hd⟩ := isValidMove_piles h
  constructor <;> simp [executeMove, h, hs]

/-- C3 counterexample: with a face-up King below the waste top and an
empty tableau column, canAutoMove reports a destination while
autoMoveToFoundation fails validation, so the query and the action
disagree. -/
theorem autoMove_query_action_disagree :
    canAutoMove autoMoveMismatchState ⟨.waste, 0, 0⟩ =
      some ⟨.tableau, 0, 0⟩ ∧
    (autoMoveToFoundation 0 autoMoveMismatchState ⟨.waste, 0, 0⟩).success = false := by
  decide

/-- C3 (amended): the query form and the action form of double-click
auto-move agree whenever the source pile is a tableau pile, or the
addressed card is the top card of a non-stock pile: canAutoMove returns
a destination exactly when autoMoveToFoundation succeeds, and on
success the committed move's destination is the returned location.
(For stock sources and non-top waste/foundation positions the query can
report a King-to-empty-column destination whose committed move fails
validation, so the unrestricted claim is false; see the
counterexample.) -/
theorem canAutoMove_autoMove_agree (now : Int) (state : GameState)
    (fromLoc : CardLocation) (sourcePile : Pile)
    (hsrc : getPile state fromLoc = some sourcePile)
    (htab : ∀ p ∈ state.tableau, p.type = .tableau)
    (hcase : sourcePile.type = .tableau ∨
      (sourcePile.type ≠ .stock ∧
        (fromLoc.cardIndex : Int) = (sourcePile.cards.length : Int) - 1)) :
    ((canAutoMove state fromLoc).isSome ↔
      (autoMoveToFoundation now state fromLoc).success = true) ∧
    (∀ dest, canAutoMove state fromLoc = some dest →
      ((autoMoveToFoundation now state fromLoc).move).map Move.toLoc = some dest) := by
  by_cases htop : (fromLoc.cardIndex : Int) = (sourcePile.cards.length : Int) - 1
  · -- the addressed card is the top card of its pile
    have htopb : ((fromLoc.cardIndex : Int) ==
        (sourcePile.cards.length : Int) - 1) = true := by
      simpa using htop
    have hneb : ((fromLoc.cardIndex : Int) !=
        (sourcePile.cards.length : Int) - 1) = false := by
      simp [bne, htopb]
    have hlt : fromLoc.cardIndex < sourcePile.cards.length := by omega
    have hcard : sourcePile.cards[fromLoc.cardIndex]? =
        some (sourcePile.cards.get ⟨fromLoc.cardIndex, hlt⟩) :=
      List.getElem?_eq_getElem hlt
    set card := sourcePile.cards.get ⟨fromLoc.cardIndex, hlt⟩ with hcarddef
    have hne : sourcePile.cards ≠ [] := by
      intro he
      rw [he] at hlt
      simp at hlt
    rcases hface : card.faceUp
    · have hq : canAutoMove state fromLoc = Option.none := by
        simp [canAutoMove, hsrc, hcard, hface]
      have ha : autoMoveToFoundation now state fromLoc =
          mkFailure cardNotAvailableError := by
        simp [autoMoveToFoundation, hsrc, hneb, hcard, hface]
      rw [hq, ha]
      exact ⟨by simp [mkFailure], by simp⟩
    · rcases hfd : firstFoundationDest state fromLoc with _ | toLoc
      · rcases hrank : card.rank == 13
        · have hq : canAutoMove state fromLoc = Option.none := by
            simp [canAutoMove, hsrc, hcard, hface, htopb, hfd, hrank]
          have ha : autoMoveToFoundation now state fromLoc =
              mkFailure noValidMoveError := by
            simp [autoMoveToFoundation, hsrc, hneb, hcard, hface, hfd, hrank]
          rw [hq, ha]
          exact ⟨by simp [mkFailure], by simp⟩
        · rcases hfe : firstEmptyTableau state with _ | dest
          · have hq : canAutoMove state fromLoc = Option.none := by
              simp [canAutoMove, hsrc, hcard, hface, htopb, hfd, hrank, hfe]
            have ha : autoMoveToFoundation now state fromLoc =
                mkFailure noValidMoveError := by
              simp [autoMoveToFoundation, hsrc, hneb, hcard, hface, hfd, hrank, hfe]
            rw [hq, ha]
            exact ⟨by simp [mkFailure], by simp⟩
          · have hq : canAutoMove state fromLoc = some dest := by
              simp [canAutoMove, hsrc, hcard, hface, htopb, hfd, hrank, hfe]
            have ha : autoMoveToFoundation now state fromLoc =
                executeMove now state fromLoc dest 1 := by
              simp [autoMoveToFoundation, hsrc, hneb, hcard, hface, hfd, hrank, hfe]
            obtain ⟨hdty, hdci, t, hgt, htc⟩ := firstEmptyTableau_spec hfe
            have hgdest : getPile state dest = some t := by
              rw [getPile, hdty]
              exact hgt
            have hpick : canPickUpCards sourcePile fromLoc.cardIndex = true := by
              have hidx : fromLoc.cardIndex = sourcePile.cards.length - 1 := by omega
              rcases hsty : sourcePile.type
              · rcases hcase with hty | ⟨hns, _⟩
                · rw [hsty] at hty
                  cases hty
                · exact absurd hsty hns
              · rw [canPickUpCards, hsty]
                simpa using htop
              · rw [canPickUpCards, hsty]
                simpa using htop
              · rw [canPickUpCards, hsty, List.drop_eq_getElem_cons hlt,
                  List.drop_eq_nil_of_le (by omega : sourcePile.cards.length <= fromLoc.cardIndex + 1)]
                have hcg : sourcePile.cards[fromLoc.cardIndex] = card := by
                  rw [hcarddef, List.get_eq_getElem]
                simp [hcg, hface]
            have hvalid : isValidMove state fromLoc dest 1 = true := by
              rw [isValidMove_iff]
              refine ⟨sourcePile, t, card, hsrc, hgdest, hpick, by omega, hcard, ?_⟩
              refine Or.inr ⟨htab t (List.getElem?_mem hgt), ?_⟩
              · rw [canPlaceOnTableau, htc]
                simpa using hrank
            rw [hq, ha]
            obtain ⟨hs1, hs2⟩ := executeMove_valid now hvalid
            refine ⟨by simp [hs1], ?_⟩
            intro dest' hdest'
            cases hdest'
            exact hs2
      · have hq : canAutoMove state fromLoc = some toLoc := by
          simp [canAutoMove, hsrc, hcard, hface, htopb, hfd]
        have ha : autoMoveToFoundation now state fromLoc =
            executeMove now state fromLoc toLoc 1 := by
          simp [autoMoveToFoundation, hsrc, hneb, hcard, hface, hfd]
        rw [hq, ha]
        obtain ⟨hs1, hs2⟩ := executeMove_valid now (firstFoundationDest_valid hfd)
        refine ⟨by simp [hs1], ?_⟩
        intro dest' hdest'
        cases hdest'
        exact hs2
  · -- a non-top card: only tableau sources are covered by the hypothesis
    have hty : sourcePile.type = .tableau := by
      rcases hcase with hty | ⟨_, habs⟩
      · exact hty
      · exact absurd habs htop
    have hneb : ((fromLoc.cardIndex : Int) !=
        (sourcePile.cards.length : Int) - 1) = true := by
      simpa [bne] using htop
    rcases hcard : sourcePile.cards[fromLoc.cardIndex]? with _ | card
    · have hq : canAutoMove state fromLoc = Option.none := by
        simp [canAutoMove, hsrc, hcard]
      have ha : autoMoveToFoundation now state fromLoc =
          mkFailure autoMoveKingError := by
        simp [autoMoveToFoundation, hsrc, hneb, hcard]
      rw [hq, ha]
      exact ⟨by simp [mkFailure], by simp⟩
    · have htopb : ((fromLoc.cardIndex : Int) ==
          (sourcePile.cards.length : Int) - 1) = false := by
        simpa using htop
      rcases hface : card.faceUp
      · have hq : canAutoMove state fromLoc = Option.none := by
          simp [canAutoMove, hsrc, hcard, hface]
        have ha : autoMoveToFoundation now state fromLoc =
            mkFailure autoMoveKingError := by
          simp [autoMoveToFoundation, hsrc, hneb, hcard, hface]
        rw [hq, ha]
        exact ⟨by simp [mkFailure], by simp⟩
      · rcases hrank : card.rank == 13
        · have hq : canAutoMove state fromLoc = Option.none := by
            simp [canAutoMove, hsrc, hcard, hface, htopb, hrank]
          have ha : autoMoveToFoundation now state fromLoc =
              mkFailure autoMoveKingError := by
            simp [autoMoveToFoundation, hsrc, hneb, hcard, hface, hrank]
          rw [hq, ha]
          exact ⟨by simp [mkFailure], by simp⟩
        · rcases hall : (sourcePile.cards.drop fromLoc.cardIndex).all (·.faceUp)
          · have hq : canAutoMove state fromLoc = Option.none := by
              simp [canAutoMove, hsrc, hcard, hface, htopb, hrank, hall]
            have ha : autoMoveToFoundation now state fromLoc =
                mkFailure autoMoveKingError := by
              simp [autoMoveToFoundation, hsrc, hneb, hcard, hface, hrank, hall]
            rw [hq, ha]
            exact ⟨by simp [mkFailure], by simp⟩
          · rcases hfe : firstEmptyTableau state with _ | dest
            · have hq : canAutoMove state fromLoc = Option.none := by
                simp [canAutoMove, hsrc, hcard, hface, htopb, hrank, hall, hfe]
              have ha : autoMoveToFoundation now state fromLoc =
                  mkFailure autoMoveKingError := by
                simp [autoMoveToFoundation, hsrc, hneb, hcard, hface, hrank, hall, hfe]
              rw [hq, ha]
              exact ⟨by simp [mkFailure], by simp⟩
            · have hq : canAutoMove state fromLoc = some dest := by
                simp [canAutoMove, hsrc, hcard, hface, htopb, hrank, hall, hfe]
              have ha : autoMoveToFoundation now state fromLoc = executeMove now
                  state fromLoc dest
                  (sourcePile.cards.length - fromLoc.cardIndex) := by
                simp [autoMoveToFoundation, hsrc, hneb, hcard, hface, hrank, hall, hfe]
              obtain ⟨hdty, hdci, t, hgt, htc⟩ := firstEmptyTableau_spec hfe
              have hgdest : getPile state dest = some t := by
                rw [getPile, hdty]
                exact hgt
              have hlt : fromLoc.cardIndex < sourcePile.cards.length := by
                by_contra hge
                rw [List.getElem?_eq_none (by omega)] at hcard
                exact absurd hcard (by simp)
              have hpick : canPickUpCards sourcePile fromLoc.cardIndex = true := by
                rw [canPickUpCards, hty]
                exact hall
              have hvalid : isValidMove state fromLoc dest
                  (sourcePile.cards.length - fromLoc.cardIndex) = true := by
                rw [isValidMove_iff]
                refine ⟨sourcePile, t, card, hsrc, hgdest, hpick, by omega,
                  hcard, ?_⟩
                refine Or.inr ⟨htab t (List.getElem?_mem hgt), ?_⟩
                rw [canPlaceOnTableau, htc]
                simpa using hrank
              rw [hq, ha]
              obtain ⟨hs1, hs2⟩ := executeMove_valid now hvalid
              refine ⟨by simp [hs1], ?_⟩
              intro dest' hdest'
              cases hdest'
              exact hs2

/-- C3 witness: the agreement on the zero-count fixture state for the
top card of tableau column 0 (a six of spades with nowhere to go: both
forms report failure). -/
theorem canAutoMove_autoMove_agree_witness :
    (canAutoMove zeroCountState ⟨.tableau, 0, 0⟩).isSome ↔
      (autoMoveToFoundation 0 zeroCountState ⟨.tableau, 0, 0⟩).success = true :=
  (canAutoMove_autoMove_agree 0 zeroCountState ⟨.tableau, 0, 0⟩
    { createPile .tableau 0 with cards := [createCard .spades 6 true] }
    (by decide) (by decide) (Or.inl (by decide))).1

/-- Setting an index to the value it already holds is the identity. -/
theorem set_getElem_self : ∀ (l : List Card) (n : Nat) (a : Card),
    l[n]? = some a → l.set n a = l
  | [], n, a, h => by simp at h
  | x :: xs, 0, a, h => by
    simp at h
    rw [List.set_cons_zero, h]
  | x :: xs, n + 1, a, h => by
    simp only [List.getElem?_cons_succ] at h
    rw [List.set_cons_succ, set_getElem_self xs n a h]

/-- Moving a set value to the head is a permutation. -/
theorem cons_set_perm : ∀ (l : List Card) (j : Nat) (b a : Card),
    l[j]? = some b → List.Perm (b :: l.set j a) (a :: l)
  | [], j, b, a, h => by simp at h
  | x :: xs, 0, b, a, h => by
    simp at h
    rw [List.set_cons_zero, ← h]
    exact List.Perm.swap a x xs
  | x :: xs, j + 1, b, a, h => by
    simp only [List.getElem?_cons_succ] at h
    rw [List.set_cons_succ]
    refine List.Perm.trans (List.Perm.swap x b (xs.set j a)) ?_
    refine List.Perm.trans (List.Perm.cons x (cons_set_perm xs j b a h)) ?_
    exact List.Perm.swap a x xs

/-- The double set performed by a swap is a permutation. -/
theorem set_set_perm : ∀ (l : List Card) (i j : Nat) (a b : Card),
    l[i]? = some a → l[j]? = some b → List.Perm ((l.set i b).set j a) l
  | [], i, j, a, b, ha, hb => by simp at ha
  | x :: xs, 0, 0, a, b, ha, hb => by
    simp at ha
    rw [List.set_cons_zero, List.set_cons_zero, ← ha]
  | x :: xs, 0, j + 1, a, b, ha, hb => by
    simp at ha
    simp only [List.getElem?_cons_succ] at hb
    rw [List.set_cons_zero, List.set_cons_succ, ha]
    exact cons_set_perm xs j b a hb
  | x :: xs, i + 1, 0, a, b, ha, hb => by
    simp at hb
    simp only [List.getElem?_cons_succ] at ha
    rw [List.set_cons_succ, List.set_cons_zero, hb]
    exact cons_set_perm xs i a b ha
  | x :: xs, i + 1, j + 1, a, b, ha, hb => by
    simp only [List.getElem?_cons_succ] at ha hb
    rw [List.set_cons_succ, List.set_cons_succ]
    exact List.Perm.cons x (set_set_perm xs i j a b ha hb)

/-- A Fisher-Yates swap step is a permutation. -/
theorem listSwap_perm (l : List Card) (i j : Nat) : List.Perm (listSwap l i j) l := by
  unfold listSwap
  split
  · next a b ha hb => exact set_set_perm l i j a b ha hb
  · exact List.Perm.refl l

/-- The Fisher-Yates loop permutes its input. -/
theorem fisherYatesAux_perm (rand : RandSource) :
    ∀ (n : Nat) (l : List Card), List.Perm (fisherYatesAux rand l n) l
  | 0, l => List.Perm.refl l
  | n + 1, l =>
    List.Perm.trans
      (fisherYatesAux_perm rand n (listSwap l (n + 1) (rand (n + 1)).val))
      (listSwap_perm l (n + 1) (rand (n + 1)).val)

/-- A shuffled deck is a permutation of the freshly created deck. -/
theorem createShuffledDeck_perm (rand : RandSource) :
    List.Perm (createShuffledDeck rand) createDeck :=
  fisherYatesAux_perm rand (createDeck.length - 1) createDeck

/-- Identities of an appended card list. -/
theorem cardIds_append (a b : List Card) :
    cardIds (a ++ b) = cardIds a + cardIds b := by
  simp [cardIds]

/-- Permuted card lists carry equal identity multisets. -/
theorem cardIds_perm {a b : List Card} (h : List.Perm a b) : cardIds a = cardIds b :=
  Multiset.coe_eq_coe.mpr (h.map Card.id)

/-- Flipping never changes a card's identity. -/
theorem flipCard_id (c : Card) (b : Bool) : (flipCard c b).id = c.id := by
  rw [flipCard_eq]

/-- Replacing a list element by one with the same identity keeps the
identity multiset. -/
theorem cardIds_set : ∀ (l : List Card) (i : Nat) (a b : Card),
    l[i]? = some a → b.id = a.id → cardIds (l.set i b) = cardIds l
  | [], i, a, b, ha, hid => by simp at ha
  | x :: xs, 0, a, b, ha, hid => by
    simp at ha
    rw [List.set_cons_zero]
    simp [cardIds, hid, ha]
  | x :: xs, i + 1, a, b, ha, hid => by
    simp only [List.getElem?_cons_succ] at ha
    rw [List.set_cons_succ]
    have := cardIds_set xs i a b ha hid
    simp only [cardIds, List.map_cons] at this ⊢
    rw [← Multiset.cons_coe, ← Multiset.cons_coe, this]

/-- Identities of a flattened list of card lists. -/
theorem cardIds_flatten (L : List (List Card)) :
    cardIds L.flatten = (L.map cardIds).sum := by
  induction L with
  | nil => rfl
  | cons x xs ih =>
    rw [List.flatten_cons, cardIds_append, List.map_cons, List.sum_cons, ih]

/-- Decomposition of the identity multiset of all cards in a state. -/
theorem cardIds_getAllCards (s : GameState) :
    cardIds (getAllCards s) = cardIds s.stock.cards + cardIds s.waste.cards +
      pilesIds s.foundations + pilesIds s.tableau := by
  rw [getAllCards, cardIds_append, cardIds_append, cardIds_append,
    cardIds_flatten, cardIds_flatten, pilesIds, pilesIds, List.map_map, List.map_map]
  rfl

/-- An index addressing an element is within bounds. -/
theorem lt_of_getElem?_some {α : Type} {l : List α} {n : Nat} {a : α}
    (h : l[n]? = some a) : n < l.length := by
  by_contra hge
  rw [List.getElem?_eq_none (by omega)] at h
  exact absurd h (by simp)

/-- Exchange of one summand in a four-term sum of a commutative monoid. -/
theorem add_exchange_four {M : Type} [AddCommMonoid M] (a b c d e g : M)
    (h : b + e = c + g) : a + b + d + e = a + c + d + g := by
  calc a + b + d + e = b + e + (a + d) := by abel
    _ = c + g + (a + d) := by rw [h]
    _ = a + c + d + g := by abel

/-- Exchange of the last summand in a three-term sum of a commutative
monoid. -/
theorem add_exchange_three {M : Type} [AddCommMonoid M] (a b c e g : M)
    (h : b + e = c + g) : a + b + e = a + c + g := by
  calc a + b + e = b + e + a := by abel
    _ = c + g + a := by rw [h]
    _ = a + c + g := by abel

/-- Identity bookkeeping of replacing one pile in a pile list. -/
theorem pilesIds_set : ∀ (piles : List Pile) (i : Nat) (p q : Pile),
    piles[i]? = some p →
    pilesIds (piles.set i q) + cardIds p.cards = pilesIds piles + cardIds q.cards
  | [], i, p, q, hp => by simp at hp
  | x :: xs, 0, p, q, hp => by
    simp at hp
    rw [List.set_cons_zero]
    simp only [pilesIds, List.map_cons, List.sum_cons, hp]
    abel
  | x :: xs, i + 1, p, q, hp => by
    simp only [List.getElem?_cons_succ] at hp
    rw [List.set_cons_succ]
    simp only [pilesIds, List.map_cons, List.sum_cons]
    have hih := pilesIds_set xs i p q hp
    simp only [pilesIds] at hih
    rw [add_assoc, hih, ← add_assoc]

/-- Identity bookkeeping of mutating the cards of one addressed pile. -/
theorem cardIds_setPileCards (state : GameState) (loc : CardLocation)
    (f : List Card → List Card) (pile : Pile)
    (hp : getPile state loc = some pile) :
    cardIds (getAllCards (setPileCards state loc f)) + cardIds pile.cards =
      cardIds (getAllCards state) + cardIds (f pile.cards) := by
  rcases loc with ⟨pt, pi, ci⟩
  rcases pt
  · simp only [getPile] at hp
    cases hp
    simp only [setPileCards]
    rw [cardIds_getAllCards, cardIds_getAllCards]
    dsimp only
    abel
  · simp only [getPile] at hp
    cases hp
    simp only [setPileCards]
    rw [cardIds_getAllCards, cardIds_getAllCards]
    dsimp only
    abel
  · simp only [getPile] at hp
    simp only [setPileCards, hp]
    rw [cardIds_getAllCards, cardIds_getAllCards]
    dsimp only
    have hps := pilesIds_set state.foundations pi pile
      { pile with cards := f pile.cards } hp
    exact add_exchange_four _ _ _ _ _ _ hps
  · simp only [getPile] at hp
    simp only [setPileCards, hp]
    rw [cardIds_getAllCards, cardIds_getAllCards]
    dsimp only
    have hps := pilesIds_set state.tableau pi pile
      { pile with cards := f pile.cards } hp
    exact add_exchange_three _ _ _ _ _ hps

/-- Replacing a list element keeps every index resolvable or
unresolvable. -/
theorem getElem?_set_isSome (l : List Pile) (i i' : Nat) (q : Pile) :
    ((l.set i q)[i']?).isSome = (l[i']?).isSome := by
  by_cases hlt : i' < l.length
  · have h1 : i' < (l.set i q).length := by rw [List.length_set]; exact hlt
    rw [List.getElem?_eq_getElem hlt, List.getElem?_eq_getElem h1]
    rfl
  · have h1 : (l.set i q).length <= i' := by rw [List.length_set]; omega
    rw [List.getElem?_eq_none h1, List.getElem?_eq_none (by omega)]

/-- Mutating a pile keeps every location resolvable or unresolvable. -/
theorem getPile_setPileCards_isSome (state : GameState) (loc loc' : CardLocation)
    (f : List Card → List Card) :
    (getPile (setPileCards state loc f) loc').isSome =
      (getPile state loc').isSome := by
  rcases loc with ⟨pt, pi, ci⟩
  rcases loc' with ⟨pt', pi', ci'⟩
  rcases pt <;> rcases pt' <;>
    simp only [getPile, setPileCards] <;>
    first
      | rfl
      | (split <;>
          first
            | rfl
            | (dsimp only; first | rfl | apply getElem?_set_isSome))

/-- Identity bookkeeping of a splice: the remainder plus the removed
segment carry the identities of the original list. -/
theorem cardIds_splice (l : List Card) (i n : Nat) :
    cardIds (l.take i ++ l.drop (i + n)) + cardIds ((l.drop i).take n) =
      cardIds l := by
  have hdecomp : cardIds l = cardIds (l.take i) +
      (cardIds ((l.drop i).take n) + cardIds ((l.drop i).drop n)) := by
    conv_lhs => rw [← List.take_append_drop i l]
    rw [cardIds_append]
    congr 1
    conv_lhs => rw [← List.take_append_drop n (l.drop i)]
    rw [cardIds_append]
  rw [cardIds_append, hdecomp, List.drop_drop]
  abel

/-- Mutating an unresolvable location is the identity. -/
theorem setPileCards_none (state : GameState) (loc : CardLocation)
    (f : List Card → List Card) (h : getPile state loc = Option.none) :
    setPileCards state loc f = state := by
  rcases loc with ⟨pt, pi, ci⟩
  rcases pt
  · exact absurd h (by simp [getPile])
  · exact absurd h (by simp [getPile])
  · simp only [getPile] at h
    simp [setPileCards, h]
  · simp only [getPile] at h
    simp [setPileCards, h]

/-- Identities of a reversed, uniformly flipped card list. -/
theorem cardIds_reverse_flip (l : List Card) (b : Bool) :
    cardIds (l.reverse.map (fun c => flipCard c b)) = cardIds l := by
  unfold cardIds
  rw [List.map_map]
  have hcomp : (Card.id ∘ fun c => flipCard c b) = Card.id := by
    funext c
    simp [Function.comp, flipCard_id]
  rw [hcomp, List.map_reverse, Multiset.coe_reverse]

/-- Card conservation of a successful executeMove. -/
theorem cardIds_executeMove (now : Int) (state : GameState)
    (fromLoc toLoc : CardLocation) (cardCount : Nat) (s' : GameState)
    (h : (executeMove now state fromLoc toLoc cardCount).state = some s') :
    cardIds (getAllCards s') = cardIds (getAllCards state) := by
  unfold executeMove at h
  cases hv : isValidMove state fromLoc toLoc cardCount
  · rw [hv] at h
    simp [mkFailure] at h
  · rw [hv] at h
    simp only [Bool.not_true, Bool.false_eq_true, if_false] at h
    obtain ⟨sp, dp, hs, hd⟩ := isValidMove_piles hv
    rw [hs] at h
    dsimp only at h
    obtain rfl : s' = _ := (Option.some.inj h).symm
    set state1 := setPileCards state fromLoc
      (fun cards => cards.take fromLoc.cardIndex ++
        cards.drop (fromLoc.cardIndex + cardCount)) with hstate1
    set movedCards := (sp.cards.drop fromLoc.cardIndex).take cardCount with hmoved
    set state2 := setPileCards state1 toLoc (fun cards => cards ++ movedCards)
      with hstate2
    have hM1 : cardIds (getAllCards state1) + cardIds sp.cards =
        cardIds (getAllCards state) +
          cardIds (sp.cards.take fromLoc.cardIndex ++
            sp.cards.drop (fromLoc.cardIndex + cardCount)) :=
      cardIds_setPileCards state fromLoc _ sp hs
    have hd1s : (getPile state1 toLoc).isSome = true := by
      rw [hstate1, getPile_setPileCards_isSome, hd]
      rfl
    obtain ⟨dp1, hd1⟩ := Option.isSome_iff_exists.mp hd1s
    have hM2 : cardIds (getAllCards state2) + cardIds dp1.cards =
        cardIds (getAllCards state1) + cardIds (dp1.cards ++ movedCards) :=
      cardIds_setPileCards state1 toLoc _ dp1 hd1
    rw [cardIds_append] at hM2
    have hM2' : cardIds (getAllCards state2) =
        cardIds (getAllCards state1) + cardIds movedCards := by
      have := hM2
      rw [← add_assoc] at this
      calc cardIds (getAllCards state2)
          = cardIds (getAllCards state2) + cardIds dp1.cards - cardIds dp1.cards := by
            rw [add_tsub_cancel_right]
        _ = cardIds (getAllCards state1) + cardIds dp1.cards + cardIds movedCards -
            cardIds dp1.cards := by rw [hM2]; abel_nf
        _ = cardIds (getAllCards state1) + cardIds movedCards := by
            rw [show cardIds (getAllCards state1) + cardIds dp1.cards +
              cardIds movedCards = cardIds (getAllCards state1) +
              cardIds movedCards + cardIds dp1.cards from by abel,
              add_tsub_cancel_right]
    have hsplice := cardIds_splice sp.cards fromLoc.cardIndex cardCount
    have hM2state : cardIds (getAllCards state2) = cardIds (getAllCards state) := by
      have hx : cardIds (getAllCards state2) + cardIds sp.cards =
          cardIds (getAllCards state) + cardIds sp.cards := by
        calc cardIds (getAllCards state2) + cardIds sp.cards
            = cardIds (getAllCards state1) + cardIds sp.cards +
              cardIds movedCards := by rw [hM2']; abel
          _ = cardIds (getAllCards state) +
              cardIds (sp.cards.take fromLoc.cardIndex ++
                sp.cards.drop (fromLoc.cardIndex + cardCount)) +
              cardIds movedCards := by rw [hM1]
          _ = cardIds (getAllCards state) + cardIds sp.cards := by
              rw [add_assoc, hmoved, hsplice]
      exact add_right_cancel hx
    have hframe : ∀ s5 : GameState,
        cardIds (getAllCards (if checkWinCondition s5 = true then
          { s5 with isWon := true, endTime := some now } else s5)) =
        cardIds (getAllCards s5) := by
      intro s5
      split <;> rfl
    rw [hframe]
    show cardIds (getAllCards (match getPile state2 fromLoc with
      | some sp2 =>
        if sp2.type == PileType.tableau && !sp2.cards.isEmpty &&
            state2.config.autoFlipTableau then
          match sp2.cards.getLast? with
          | some topCard =>
            if !topCard.faceUp then
              (setPileCards state2 fromLoc
                (fun cards => cards.set (cards.length - 1) (flipCard topCard true)),
                true)
            else (state2, false)
          | Option.none => (state2, false)
        else (state2, false)
      | Option.none => (state2, false) : GameState × Bool).1) =
      cardIds (getAllCards state)
    rcases hg2 : getPile state2 fromLoc with _ | sp2
    · exact hM2state
    · dsimp only
      split
      · rcases hlast : sp2.cards.getLast? with _ | topCard
        · exact hM2state
        · dsimp only
          split
          · have hM3 : cardIds (getAllCards (setPileCards state2 fromLoc
                (fun cards => cards.set (cards.length - 1) (flipCard topCard true)))) +
                cardIds sp2.cards =
                cardIds (getAllCards state2) +
                  cardIds (sp2.cards.set (sp2.cards.length - 1)
                    (flipCard topCard true)) :=
              cardIds_setPileCards state2 fromLoc _ sp2 hg2
            have hidseq : cardIds (sp2.cards.set (sp2.cards.length - 1)
                (flipCard topCard true)) = cardIds sp2.cards := by
              apply cardIds_set sp2.cards (sp2.cards.length - 1) topCard
              · rw [← List.getLast?_eq_getElem?]
                exact hlast
              · exact flipCard_id topCard true
            rw [hidseq] at hM3
            have := add_right_cancel hM3
            rw [this, hM2state]
          · exact hM2state
      · exact hM2state

/-- Card conservation of a successful flipTableauCard. -/
theorem cardIds_flipTableauCard (now : Int) (state : GameState) (i : Int)
    (s' : GameState) (h : (flipTableauCard now state i).state = some s') :
    cardIds (getAllCards s') = cardIds (getAllCards state) := by
  unfold flipTableauCard at h
  split at h
  · simp [mkFailure] at h
  rcases hg : state.tableau[i.toNat]? with _ | tPile <;> rw [hg] at h
  · simp [mkFailure] at h
  dsimp only at h
  split at h
  · simp [mkFailure] at h
  rcases hlast : tPile.cards.getLast? with _ | topCard <;> rw [hlast] at h
  · simp [mkFailure] at h
  dsimp only at h
  split at h
  · simp [mkFailure] at h
  obtain rfl : s' = _ := (Option.some.inj h).symm
  have hgp : getPile state ⟨.tableau, i.toNat, 0⟩ = some tPile := hg
  have hM1 : cardIds (getAllCards (setPileCards state ⟨.tableau, i.toNat, 0⟩
      (fun cards => cards.set (cards.length - 1) (flipCard topCard true)))) +
      cardIds tPile.cards =
      cardIds (getAllCards state) +
        cardIds (tPile.cards.set (tPile.cards.length - 1) (flipCard topCard true)) :=
    cardIds_setPileCards state _ _ tPile hgp
  have hidseq : cardIds (tPile.cards.set (tPile.cards.length - 1)
      (flipCard topCard true)) = cardIds tPile.cards := by
    apply cardIds_set tPile.cards (tPile.cards.length - 1) topCard
    · rw [← List.getLast?_eq_getElem?]
      exact hlast
    · exact flipCard_id topCard true
  rw [hidseq] at hM1
  exact add_right_cancel hM1

/-- Identities of a take/drop split. -/
theorem cardIds_take_drop (l : List Card) (m : Nat) :
    cardIds (l.take m) + cardIds (l.drop m) = cardIds l := by
  rw [← cardIds_append, List.take_append_drop]

/-- Card conservation of drawFromStock. -/
theorem cardIds_drawFromStock (now : Int) (s : GameState) :
    cardIds (getAllCards (drawFromStock now s)) = cardIds (getAllCards s) := by
  unfold drawFromStock
  split
  · rfl
  · rw [cardIds_getAllCards, cardIds_getAllCards]
    dsimp only
    rw [drawLoopCards_spec _ _ _ (min_le_right _ _)]
    dsimp only
    rw [cardIds_append, cardIds_reverse_flip]
    generalize s.stock.cards.length -
      min (if s.config.drawMode == DrawMode.drawThree then 3 else 1)
        s.stock.cards.length = m
    rw [← cardIds_take_drop s.stock.cards m]
    abel

/-- Card conservation of resetStock. -/
theorem cardIds_resetStock (s : GameState) :
    cardIds (getAllCards (resetStock s)) = cardIds (getAllCards s) := by
  unfold resetStock
  split
  · rfl
  split
  · rfl
  · rw [cardIds_getAllCards, cardIds_getAllCards]
    dsimp only
    rw [recycleRev_spec, cardIds_append, cardIds_reverse_flip,
      show cardIds [] = 0 from rfl]
    abel

/-- A successful auto-move commits through executeMove. -/
theorem autoMove_as_executeMove (now : Int) (state : GameState)
    (fromLoc : CardLocation) (s' : GameState)
    (h : (autoMoveToFoundation now state fromLoc).state = some s') :
    ∃ f t n, (executeMove now state f t n).state = some s' := by
  unfold autoMoveToFoundation at h
  repeat' split at h
  all_goals
    first
      | exact ⟨_, _, _, h⟩
      | simp [mkFailure] at h

/-- A successful auto-complete step commits through executeMove. -/
theorem autoStep_as_executeMove (now : Int) (state : GameState) (s' : GameState)
    (h : autoCompleteStep now state = some s') :
    ∃ f t n, (executeMove now state f t n).state = some s' := by
  unfold autoCompleteStep at h
  split at h
  · exact absurd h (by simp)
  · dsimp only at h
    split at h
    · exact ⟨_, _, _, h⟩
    · exact absurd h (by simp)

/-- The length of a pile list survives a push. -/
theorem pushToPile_length (piles : List Pile) (i : Nat) (c : Card) :
    (pushToPile piles i c).length = piles.length := by
  unfold pushToPile
  split <;> simp [List.length_set]

/-- Identities of a cons card list. -/
theorem cardIds_cons (c : Card) (l : List Card) :
    cardIds (c :: l) = cardIds [c] + cardIds l := by
  rw [← List.singleton_append, cardIds_append]

/-- Identity bookkeeping of the dealing loop: the cards pushed into the
tableau piles plus the remaining deck carry the identities of the piles
and deck the loop started from. -/
theorem dealLoop_ids : ∀ (pairs : List (Nat × Nat)) (piles : List Pile)
    (deck : List Card), (∀ pr ∈ pairs, pr.2 < piles.length) →
    pilesIds (dealLoop pairs piles deck).1 + cardIds (dealLoop pairs piles deck).2 =
      pilesIds piles + cardIds deck
  | [], piles, deck, hb => by simp [dealLoop]
  | (col, row) :: rest, piles, deck, hb => by
    rcases deck with _ | ⟨card, deckRest⟩
    · simp [dealLoop]
    · show pilesIds (dealLoop rest
        (pushToPile piles row (flipCard card (row == col))) deckRest).1 +
        cardIds (dealLoop rest
          (pushToPile piles row (flipCard card (row == col))) deckRest).2 = _
      have hrow : row < piles.length := hb (col, row) (by simp)
      obtain ⟨p, hp⟩ : ∃ p, piles[row]? = some p :=
        ⟨piles.get ⟨row, hrow⟩, by rw [List.getElem?_eq_getElem hrow]; rfl⟩
      have hpushdef : pushToPile piles row (flipCard card (row == col)) =
          piles.set row { p with
            cards := p.cards ++ [flipCard card (row == col)] } := by
        unfold pushToPile
        rw [hp]
      have hps := pilesIds_set piles row p
        { p with cards := p.cards ++ [flipCard card (row == col)] } hp
      dsimp only at hps
      rw [cardIds_append] at hps
      have hpush : pilesIds (pushToPile piles row (flipCard card (row == col))) =
          pilesIds piles + cardIds [flipCard card (row == col)] := by
        rw [hpushdef]
        have hx : pilesIds piles + (cardIds p.cards +
            cardIds [flipCard card (row == col)]) =
            pilesIds piles + cardIds [flipCard card (row == col)] +
              cardIds p.cards := by abel
        rw [hx] at hps
        exact add_right_cancel hps
      have hb' : ∀ pr ∈ rest, pr.2 <
          (pushToPile piles row (flipCard card (row == col))).length := by
        intro pr hpr
        rw [pushToPile_length]
        exact hb pr (by simp [hpr])
      rw [dealLoop_ids rest _ deckRest hb', hpush, cardIds_cons]
      have hflipid : cardIds [flipCard card (row == col)] = cardIds [card] := by
        simp [cardIds, flipCard_id]
      rw [hflipid]
      abel

/-- Card conservation of the initial deal. -/
theorem cardIds_createInitialState (config : GameConfig) (rand : RandSource) :
    cardIds (getAllCards (createInitialState config rand)) = cardIds createDeck := by
  have hbounds : ∀ pr ∈ dealPairs, pr.2 <
      ([createPile .tableau 0, createPile .tableau 1, createPile .tableau 2,
        createPile .tableau 3, createPile .tableau 4, createPile .tableau 5,
        createPile .tableau 6] : List Pile).length := by decide
  have hdeal := dealLoop_ids dealPairs _ (createShuffledDeck rand) hbounds
  rw [show pilesIds [createPile .tableau 0, createPile .tableau 1,
    createPile .tableau 2, createPile .tableau 3, createPile .tableau 4,
    createPile .tableau 5, createPile .tableau 6] = 0 from rfl, zero_add] at hdeal
  unfold createInitialState
  rw [cardIds_getAllCards]
  dsimp only
  rw [show cardIds (createPile PileType.waste 0).cards = 0 from rfl,
    show pilesIds [createPile PileType.foundation 0, createPile PileType.foundation 1,
      createPile PileType.foundation 2, createPile PileType.foundation 3] = 0 from rfl]
  have hswap : cardIds (dealLoop dealPairs
      [createPile .tableau 0, createPile .tableau 1, createPile .tableau 2,
        createPile .tableau 3, createPile .tableau 4, createPile .tableau 5,
        createPile .tableau 6] (createShuffledDeck rand)).2 + 0 + 0 +
      pilesIds (dealLoop dealPairs
        [createPile .tableau 0, createPile .tableau 1, createPile .tableau 2,
          createPile .tableau 3, createPile .tableau 4, createPile .tableau 5,
          createPile .tableau 6] (createShuffledDeck rand)).1 =
      pilesIds (dealLoop dealPairs
        [createPile .tableau 0, createPile .tableau 1, createPile .tableau 2,
          createPile .tableau 3, createPile .tableau 4, createPile .tableau 5,
          createPile .tableau 6] (createShuffledDeck rand)).1 +
      cardIds (dealLoop dealPairs
        [createPile .tableau 0, createPile .tableau 1, createPile .tableau 2,
          createPile .tableau 3, createPile .tableau 4, createPile .tableau 5,
          createPile .tableau 6] (createShuffledDeck rand)).2 := by abel
  rw [hswap, hdeal]
  exact cardIds_perm (createShuffledDeck_perm rand)

/-- Every reachable state carries exactly the identities of the fresh
deck. -/
theorem cardIds_reachable {s : GameState} (h : Reachable s) :
    cardIds (getAllCards s) = cardIds createDeck := by
  induction h with
  | init config rand => exact cardIds_createInitialState config rand
  | draw now _ ih => rw [cardIds_drawFromStock]; exact ih
  | reset _ ih => rw [cardIds_resetStock]; exact ih
  | move now fromLoc toLoc cardCount _ hm ih =>
    rw [cardIds_executeMove now _ fromLoc toLoc cardCount _ hm]
    exact ih
  | flip now i _ hm ih =>
    rw [cardIds_flipTableauCard now _ i _ hm]
    exact ih
  | autoMove now fromLoc _ hm ih =>
    obtain ⟨f, t, n, hx⟩ := autoMove_as_executeMove now _ fromLoc _ hm
    rw [cardIds_executeMove now _ f t n _ hx]
    exact ih
  | autoStep now _ hm ih =>
    obtain ⟨f, t, n, hx⟩ := autoStep_as_executeMove now _ _ hm
    rw [cardIds_executeMove now _ f t n _ hx]
    exact ih

/-- C2: every GameState reachable from createInitialState through
drawFromStock, resetStock, executeMove, flipTableauCard,
autoMoveToFoundation and autoCompleteStep holds exactly 52 cards in
total across stock, waste, foundations and tableau, with pairwise
distinct card identities. -/
theorem reachable_card_conservation (s : GameState) (h : Reachable s) :
    (getAllCards s).length = 52 ∧ ((getAllCards s).map Card.id).Nodup := by
  have hm := cardIds_reachable h
  constructor
  · have hcard := congrArg Multiset.card hm
    have hlen : (cardIds (getAllCards s)).card = (getAllCards s).length := by
      simp [cardIds]
    rw [hlen] at hcard
    rw [hcard]
    decide
  · have hnodup : (cardIds createDeck).Nodup := by
      rw [show cardIds createDeck =
        ((createDeck.map Card.id : List CardId) : Multiset CardId) from rfl,
        Multiset.coe_nodup]
      decide
    rw [← hm] at hnodup
    exact Multiset.coe_nodup.mp hnodup

/-- C2 witness: the conservation property instantiated at the concrete
initial deal drawn with the all-zero random source. -/
theorem reachable_card_conservation_witness :
    (getAllCards (createInitialState DEFAULT_CONFIG zeroRand)).length = 52 ∧
    ((getAllCards (createInitialState DEFAULT_CONFIG zeroRand)).map Card.id).Nodup :=
  reachable_card_conservation _ (Reachable.init DEFAULT_CONFIG zeroRand)

end Solitaire
